import Mathlib

/-!
Verification of the libdoc spec builders (`robot/libdocpkg/jsonbuilder.py` and
`robot/libdocpkg/xmlbuilder.py`): a shallow embedding of the two format
adapters, their keyword/data-type assemblers, and the parameter
reconstructor, together with proofs of the specified properties.
-/

namespace RobotLibdoc

/-- The Python-level failures the embedded code can raise.
`dataError` is `robot.errors.DataError` (the domain-specific error the
builders raise themselves); the others are built-in Python exceptions that
escape unmodified: `keyError` from a failing dict subscript (carrying the
printed key), `typeError` from `int(None)`, `valueError` from `int` applied
to a non-numeric string, `attributeError` from attribute access on `None`. -/
inductive PyError where
  | dataError (msg : String)
  | keyError (key : String)
  | typeError
  | valueError (s : String)
  | attributeError
deriving Repr, DecidableEq

/-- How Python prints an `Optional[str]` inside an f-string / `KeyError`:
`None` when absent, the string itself otherwise. -/
def pyShowOpt : Option String → String
  | none => "None"
  | some s => s

/-- Python `x or ''` / `text or ''` on an optional string: `None` and the
empty string are falsy, so the result is the string when non-empty. -/
def pyOrEmpty (v : Option String) : String := v.getD ""

/-- Python `str.upper()` restricted to ASCII case mapping: upper-case every
character (`String.toUpper` is exactly `String.map Char.toUpper`; this
structural form evaluates definitionally). -/
def pyUpper (s : String) : String := ⟨s.data.map Char.toUpper⟩

/-- Python `a or b` on two optional strings (`None` and `''` are falsy). -/
def pyOrOpt (a b : Option String) : Option String :=
  match a with
  | some s => if s = "" then b else some s
  | none => b

/-- Decimal integer parsing, the fragment of Python `int(str)` exercised by
the builders: an optional sign followed by decimal digits. -/
def digitsVal (cs : List Char) : Option Nat :=
  cs.foldl
    (fun acc c =>
      match acc with
      | none => none
      | some n => if c.isDigit then some (n * 10 + (c.toNat - 48)) else none)
    (some 0)

/-- Python `int(s)` on a decimal numeral string (optional sign), `none` when
the string is not a numeral. -/
def pyIntParse (s : String) : Option Int :=
  match s.data with
  | [] => none
  | c :: rest =>
    if c = '-' then
      match rest with
      | [] => none
      | _ => (digitsVal rest).map (fun n => -(n : Int))
    else if c = '+' then
      match rest with
      | [] => none
      | _ => (digitsVal rest).map (fun n => (n : Int))
    else (digitsVal (c :: rest)).map (fun n => (n : Int))

/-- Python `int(x)` where `x` is an optional string: `int(None)` raises
`TypeError`, a non-numeral string raises `ValueError`. -/
def pyIntOfOpt : Option String → Except PyError Int
  | none => .error .typeError
  | some s =>
    match pyIntParse s with
    | some n => .ok n
    | none => .error (.valueError s)

/-- Python `int(d.get(k, -1))` where the stored value, when present, is a
string to parse. -/
def pyIntOfOptDefault (v : Option String) (d : Int) : Except PyError Int :=
  match v with
  | none => .ok d
  | some s =>
    match pyIntParse s with
    | some n => .ok n
    | none => .error (.valueError s)

/-- Insertion-ordered mapping, the model of a Python `dict` built purely by
item assignment: `d[k] = v` replaces the value in place when the key is
present and appends a fresh entry otherwise. -/
def dictSet {κ β : Type} [DecidableEq κ] : List (κ × β) → κ → β → List (κ × β)
  | [], k, v => [(k, v)]
  | p :: rest, k, v => if p.1 = k then (k, v) :: rest else p :: dictSet rest k v

/-- Lookup in the insertion-ordered mapping model. -/
def dictGet? {κ β : Type} [DecidableEq κ] : List (κ × β) → κ → Option β
  | [], _ => none
  | p :: rest, k => if p.1 = k then some p.2 else dictGet? rest k

end RobotLibdoc

namespace RobotLibdoc

/- The builders dispatch on the seven kind tokens of `robot.running.ArgInfo`,
which is outside the two source files; §4.3 of the spec gives the closed
token set and the variant-A scenario in §8 fixes the serialized spellings
of the separator markers and variadic kinds. -/
namespace ArgInfo

/-- Modelled from the spec: kind token of a positional-only parameter. -/
def POSITIONAL_ONLY : String := "POSITIONAL_ONLY"

/-- Modelled from the spec: kind token of the positional-only separator. -/
def POSITIONAL_ONLY_MARKER : String := "POSITIONAL_ONLY_SEPARATOR"

/-- Modelled from the spec: kind token of a positional-or-named parameter. -/
def POSITIONAL_OR_NAMED : String := "POSITIONAL_OR_NAMED"

/-- Modelled from the spec: kind token of the variadic positional parameter. -/
def VAR_POSITIONAL : String := "VARIADIC_POSITIONAL"

/-- Modelled from the spec: kind token of the named-only separator. -/
def NAMED_ONLY_MARKER : String := "NAMED_ONLY_SEPARATOR"

/-- Modelled from the spec: kind token of a named-only parameter. -/
def NAMED_ONLY : String := "NAMED_ONLY"

/-- Modelled from the spec: kind token of the variadic named parameter. -/
def VAR_NAMED : String := "VARIADIC_NAMED"

end ArgInfo

/-- The closed set of recognized kind tokens, in the order the setter table
lists them. -/
def sevenKinds : List String :=
  [ArgInfo.POSITIONAL_ONLY, ArgInfo.POSITIONAL_ONLY_MARKER,
   ArgInfo.POSITIONAL_OR_NAMED, ArgInfo.VAR_POSITIONAL,
   ArgInfo.NAMED_ONLY_MARKER, ArgInfo.NAMED_ONLY, ArgInfo.VAR_NAMED]

/-- The two separator-marker kind tokens. -/
def markerKinds : List String :=
  [ArgInfo.POSITIONAL_ONLY_MARKER, ArgInfo.NAMED_ONLY_MARKER]

/-- Modelled from the spec: the target parameter grouping
(`robot.running.ArgumentSpec` is outside the two source files; §3
"ParameterSpec" lists exactly these fields, and `ArgumentSpec()` starts with
empty groups, an empty defaults dict and no types dict).
`ν` is the name type (`String` for the variant-A adapter, `Option String`
for variant B, whose names are element texts), `τ` the element type of a
recorded type tuple, `α` the default-value type. -/
structure ArgumentSpec (ν τ α : Type) where
  positional_only : List ν := []
  positional_or_named : List ν := []
  var_positional : Option ν := none
  named_only : List ν := []
  var_named : Option ν := none
  defaults : List (ν × α) := []
  types : Option (List (ν × List τ)) := none
deriving Repr, DecidableEq, Inhabited

/-- Lookup a name in the `types` mapping of an `ArgumentSpec` (no mapping at
all behaves as an empty one for lookup purposes). -/
def ArgumentSpec.typesGet? {ν τ α : Type} [DecidableEq ν] (s : ArgumentSpec ν τ α) (n : ν) :
    Option (List τ) :=
  match s.types with
  | none => none
  | some d => dictGet? d n

/-- A JSON scalar as it can appear as a parameter default value in a
variant-A document. A JSON `null` default is indistinguishable from an
absent one to the Python code (`dict.get` returns `None` for both), so the
embedding folds both into the absent case. -/
inductive JsonValue where
  | s (v : String)
  | i (v : Int)
  | b (v : Bool)
deriving Repr, DecidableEq

/-- One parameter record of a variant-A document: `{name, kind,
defaultValue?, types[]}`.  `types := none` models a record whose dict lacks
the `"types"` key, so that the source's `arg['types']` subscript fails. -/
structure JsonArg where
  name : String
  kind : String
  defaultValue : Option JsonValue := none
  types : Option (List String) := none
deriving Repr, DecidableEq

/-- The `ArgumentSpec` instantiation produced by the variant-A adapter. -/
abbrev JArgSpec := ArgumentSpec String String JsonValue

namespace JsonDocBuilder

/-- The setter table of `JsonDocBuilder._create_arguments`: dispatch on the
kind string; an unrecognized kind is a failing dict subscript
(`KeyError` carrying the kind). -/
def setterApply (s : JArgSpec) (kind name : String) : Except PyError JArgSpec :=
  if kind = ArgInfo.POSITIONAL_ONLY then
    .ok { s with positional_only := s.positional_only ++ [name] }
  else if kind = ArgInfo.POSITIONAL_ONLY_MARKER then .ok s
  else if kind = ArgInfo.POSITIONAL_OR_NAMED then
    .ok { s with positional_or_named := s.positional_or_named ++ [name] }
  else if kind = ArgInfo.VAR_POSITIONAL then .ok { s with var_positional := some name }
  else if kind = ArgInfo.NAMED_ONLY_MARKER then .ok s
  else if kind = ArgInfo.NAMED_ONLY then .ok { s with named_only := s.named_only ++ [name] }
  else if kind = ArgInfo.VAR_NAMED then .ok { s with var_named := some name }
  else .error (.keyError kind)

/-- One iteration of the loop in `JsonDocBuilder._create_arguments`:
`setters[arg['kind']](arg['name'])`, then the optional default, then the
unconditional `spec.types[name] = tuple(arg['types'])` (a `KeyError` when
the record has no `"types"` key).  The source writes the default before the
`arg['types']` subscript; since a raised exception discards the spec under
construction and the two writes touch distinct fields, checking the
`"types"` key first is observationally the same. -/
def processArg (s : JArgSpec) (a : JsonArg) : Except PyError JArgSpec :=
  match setterApply s a.kind a.name with
  | .error e => .error e
  | .ok s₁ =>
    match a.types with
    | none => .error (.keyError "types")
    | some ts =>
      match a.defaultValue with
      | some v =>
        .ok { s₁ with
              defaults := dictSet s₁.defaults a.name v
              types := some (dictSet (s₁.types.getD []) a.name ts) }
      | none => .ok { s₁ with types := some (dictSet (s₁.types.getD []) a.name ts) }

/-- The loop of `JsonDocBuilder._create_arguments` over the record list. -/
def createArgumentsAux (s : JArgSpec) : List JsonArg → Except PyError JArgSpec
  | [] => .ok s
  | a :: rest =>
    match processArg s a with
    | .error e => .error e
    | .ok s' => createArgumentsAux s' rest

/-- Definition of `JsonDocBuilder._create_arguments`: fold the records over a fresh
`ArgumentSpec()`. -/
def create_arguments (args : List JsonArg) : Except PyError JArgSpec :=
  createArgumentsAux {} args

end JsonDocBuilder

end RobotLibdoc

namespace RobotLibdoc

/-- An element of the parsed variant-B markup tree: tag, attributes, text
and child elements, as exposed by the external `ET` parser. -/
structure XmlElem where
  tag : String
  attrs : List (String × String) := []
  text : Option String := none
  children : List XmlElem := []

namespace XmlElem

/-- Python `elem.get(k)`: the attribute value, `None` when absent. -/
def attr (e : XmlElem) (k : String) : Option String :=
  (e.attrs.find? (fun p => p.1 = k)).map Prod.snd

/-- Python `elem.find(tag)`: the first direct child with the given tag. -/
def find (e : XmlElem) (t : String) : Option XmlElem :=
  e.children.find? (fun c => c.tag = t)

/-- Python `elem.findall(tag)`: all direct children with the given tag, in order. -/
def findall (e : XmlElem) (t : String) : List XmlElem :=
  e.children.filter (fun c => c.tag = t)

/-- Python `elem.findall('a/b')`: all `b` children of all `a` children, in order. -/
def findall2 (e : XmlElem) (t₁ t₂ : String) : List XmlElem :=
  (e.findall t₁).flatMap (fun c => c.findall t₂)

/-- Python `elem.findall('a/b/c')`. -/
def findall3 (e : XmlElem) (t₁ t₂ t₃ : String) : List XmlElem :=
  (e.findall2 t₁ t₂).flatMap (fun c => c.findall t₃)

end XmlElem

/-- The `ArgumentSpec` instantiation produced by the variant-B adapter:
names and recorded type entries are element texts (`Optional[str]`),
default values are strings. -/
abbrev XArgSpec := ArgumentSpec (Option String) (Option String) String

namespace XmlDocBuilder

/-- The setter table of `XmlDocBuilder._create_arguments`: dispatch on the
`kind` attribute (an `Optional[str]`); a missing or unrecognized kind is a
failing dict subscript whose `KeyError` prints the key. -/
def setterApply (s : XArgSpec) (kind : Option String) (name : Option String) :
    Except PyError XArgSpec :=
  if kind = some ArgInfo.POSITIONAL_ONLY then
    .ok { s with positional_only := s.positional_only ++ [name] }
  else if kind = some ArgInfo.POSITIONAL_ONLY_MARKER then .ok s
  else if kind = some ArgInfo.POSITIONAL_OR_NAMED then
    .ok { s with positional_or_named := s.positional_or_named ++ [name] }
  else if kind = some ArgInfo.VAR_POSITIONAL then .ok { s with var_positional := some name }
  else if kind = some ArgInfo.NAMED_ONLY_MARKER then .ok s
  else if kind = some ArgInfo.NAMED_ONLY then .ok { s with named_only := s.named_only ++ [name] }
  else if kind = some ArgInfo.VAR_NAMED then .ok { s with var_named := some name }
  else .error (.keyError (pyShowOpt kind))

/-- One iteration of the loop in `XmlDocBuilder._create_arguments`: an
`<arg>` without a `<name>` child is skipped entirely; otherwise dispatch on
the `kind` attribute with the name element's text, record the `<default>`
child's text (`or ''`) when that child exists, and record the tuple of
`<type>` child texts unconditionally. -/
def processArg (s : XArgSpec) (a : XmlElem) : Except PyError XArgSpec :=
  match a.find "name" with
  | none => .ok s
  | some nameElem =>
    match setterApply s (a.attr "kind") nameElem.text with
    | .error e => .error e
    | .ok s₁ =>
      match a.find "default" with
      | some de =>
        .ok { s₁ with
              defaults := dictSet s₁.defaults nameElem.text (pyOrEmpty de.text)
              types := some (dictSet (s₁.types.getD []) nameElem.text
                ((a.findall "type").map XmlElem.text)) }
      | none =>
        .ok { s₁ with types := some (dictSet (s₁.types.getD []) nameElem.text
                ((a.findall "type").map XmlElem.text)) }

/-- The loop of `XmlDocBuilder._create_arguments` over the `<arg>` list. -/
def createArgumentsAux (s : XArgSpec) : List XmlElem → Except PyError XArgSpec
  | [] => .ok s
  | a :: rest =>
    match processArg s a with
    | .error e => .error e
    | .ok s' => createArgumentsAux s' rest

/-- Definition of `XmlDocBuilder._create_arguments` applied to the already-selected list
of `<arg>` elements. -/
def createArgumentsList (args : List XmlElem) : Except PyError XArgSpec :=
  createArgumentsAux {} args

/-- Definition of `XmlDocBuilder._create_arguments`: fold `elem.findall('arguments/arg')`
over a fresh `ArgumentSpec()`. -/
def create_arguments (elem : XmlElem) : Except PyError XArgSpec :=
  createArgumentsList (elem.findall2 "arguments" "arg")

end XmlDocBuilder

/-- One keyword/init entry of a variant-A document, with the fields the
builder reads: `kw.get('name')`, `kw['args']`, `kw['doc']`, `kw['shortdoc']`,
`kw['tags']`, `kw['source']` (a JSON `null` reads as `None`), and
`kw.get('lineno', -1)` (a JSON number). -/
structure JsonKw where
  name : Option String := none
  args : List JsonArg := []
  doc : String := ""
  shortdoc : String := ""
  tags : List String := []
  source : Option String := none
  lineno : Option Int := none
deriving Repr, DecidableEq

/-- Modelled from the spec: one documented callable (`KeywordDoc` lives in
`libdocpkg.model`, outside the two source files; §3 "CallableDoc" lists
these fields), as populated by the variant-A adapter. -/
structure JKeywordDoc where
  name : Option String
  args : JArgSpec
  doc : String
  shortdoc : String
  tags : List String
  source : Option String
  lineno : Int
deriving Repr, DecidableEq

/-- Definition of `JsonDocBuilder._create_keyword`. -/
def JsonDocBuilder.create_keyword (kw : JsonKw) : Except PyError JKeywordDoc :=
  match JsonDocBuilder.create_arguments kw.args with
  | .error e => .error e
  | .ok args =>
    .ok { name := kw.name, args, doc := kw.doc, shortdoc := kw.shortdoc,
          tags := kw.tags, source := kw.source, lineno := kw.lineno.getD (-1) }

/-- One enum member record of a variant-A document. -/
structure JsonEnumMember where
  name : String
  value : String
deriving Repr, DecidableEq

/-- One enum record of a variant-A document. -/
structure JsonEnum where
  name : String
  doc : String
  members : List JsonEnumMember
deriving Repr, DecidableEq

/-- One typed-dict item record of a variant-A document:
`item['key']`, `item['type']`, `item.get('required')` (a possibly absent
boolean). -/
structure JsonTypedDictItem where
  key : String
  type : String
  required : Option Bool := none
deriving Repr, DecidableEq

/-- One typed-dict record of a variant-A document. -/
structure JsonTypedDict where
  name : String
  doc : String
  items : List JsonTypedDictItem
deriving Repr, DecidableEq

/-- One custom-type record of a variant-A document. -/
structure JsonCustom where
  name : String
  doc : String
deriving Repr, DecidableEq

/-- The `dataTypes` sub-tree of a variant-A document; each of the three
lists defaults to empty (`data_types.get(..., [])`). -/
structure JsonDataTypes where
  enums : List JsonEnum := []
  typedDicts : List JsonTypedDict := []
  customs : List JsonCustom := []
deriving Repr, DecidableEq

/-- Modelled from the spec: one typed-dict item of the documentation model
(`TypedDictItem` lives in `libdocpkg.datatypes`, outside the two source
files; §3 "RecordTypeDoc" gives `{key, type, required: boolean or
unknown/absent}`), as populated by the variant-A adapter. -/
structure JTypedDictItemDoc where
  key : String
  type : String
  required : Option Bool
deriving Repr, DecidableEq

/-- The typed-dict documentation entry produced by the variant-A adapter. -/
structure JTypedDictDoc where
  name : String
  doc : String
  items : List JTypedDictItemDoc
deriving Repr, DecidableEq

/-- A data-type documentation entry produced by the variant-A adapter
(enum members are `(name, value)` pairs). -/
inductive JDataTypeDoc where
  | enum (name doc : String) (members : List (String × String))
  | typedDict (td : JTypedDictDoc)
  | custom (name doc : String)
deriving Repr, DecidableEq

/-- Definition of `JsonDocBuilder._create_typed_dict_doc`. -/
def JsonDocBuilder.create_typed_dict_doc (d : JsonTypedDict) : JTypedDictDoc :=
  { name := d.name, doc := d.doc,
    items := d.items.map (fun it => { key := it.key, type := it.type, required := it.required }) }

/-- Definition of `JsonDocBuilder._create_data_types`: enums, then typed dicts, then
customs.  The caller stores the result in a `set` of freshly created
objects, which keeps every element; the embedding keeps the concatenation
order. -/
def JsonDocBuilder.create_data_types (dts : JsonDataTypes) : List JDataTypeDoc :=
  dts.enums.map (fun e => .enum e.name e.doc (e.members.map (fun m => (m.name, m.value))))
    ++ dts.typedDicts.map (fun td => .typedDict (JsonDocBuilder.create_typed_dict_doc td))
    ++ dts.customs.map (fun c => .custom c.name c.doc)

/-- A variant-A document with the fields `build_from_dict` reads. -/
structure JsonDoc where
  name : String
  doc : String := ""
  version : String := ""
  type : String := "LIBRARY"
  scope : String := "GLOBAL"
  docFormat : String := "ROBOT"
  source : Option String := none
  lineno : Option Int := none
  inits : List JsonKw := []
  keywords : List JsonKw := []
  dataTypes : JsonDataTypes := {}
deriving Repr, DecidableEq

/-- Modelled from the spec: the root documentation model (`LibraryDoc` lives
in `libdocpkg.model`, outside the two source files; §3 "LibraryDocument"
lists these fields), as populated by the variant-A adapter. -/
structure JLibraryDoc where
  name : String
  doc : String
  version : String
  type : String
  scope : String
  doc_format : String
  source : Option String
  lineno : Int
  inits : List JKeywordDoc
  keywords : List JKeywordDoc
  data_types : List JDataTypeDoc
deriving Repr, DecidableEq

/-- Definition of `JsonDocBuilder.build_from_dict`. -/
def JsonDocBuilder.build_from_dict (spec : JsonDoc) : Except PyError JLibraryDoc :=
  match spec.inits.mapM JsonDocBuilder.create_keyword with
  | .error e => .error e
  | .ok inits =>
    match spec.keywords.mapM JsonDocBuilder.create_keyword with
    | .error e => .error e
    | .ok keywords =>
      .ok { name := spec.name, doc := spec.doc, version := spec.version, type := spec.type,
            scope := spec.scope, doc_format := spec.docFormat, source := spec.source,
            lineno := spec.lineno.getD (-1), inits, keywords,
            data_types := JsonDocBuilder.create_data_types spec.dataTypes }

/-- Definition of `JsonDocBuilder._parse_spec_json` followed by `build_from_dict`, i.e.
`JsonDocBuilder.build`.  The filesystem is an external collaborator: `fs`
maps a path to the already-parsed document of an existing readable spec
file and to `none` when `os.path.isfile` is false. -/
def JsonDocBuilder.build (fs : String → Option JsonDoc) (path : String) :
    Except PyError JLibraryDoc :=
  match fs path with
  | none => .error (.dataError ("Spec file '" ++ path ++ "' does not exist."))
  | some spec => JsonDocBuilder.build_from_dict spec

/-- Modelled from the spec: one documented callable as populated by the
variant-B adapter (`KeywordDoc` lives in `libdocpkg.model`, outside the two
source files; §3 "CallableDoc").  Names default to the empty string, tags
are tag-element texts, the source falls back to the library source. -/
structure XKeywordDoc where
  name : String
  args : XArgSpec
  doc : String
  shortdoc : String
  tags : List (Option String)
  source : Option String
  lineno : Int
deriving Repr, DecidableEq

/-- Definition of `XmlDocBuilder._create_keyword`: field expressions evaluated in the
source's argument order; `elem.find('doc')`/`elem.find('shortdoc')` on a
missing child is `None.text`, an `AttributeError`. -/
def XmlDocBuilder.create_keyword (elem : XmlElem) (libSource : Option String) :
    Except PyError XKeywordDoc :=
  let name := (elem.attr "name").getD ""
  match XmlDocBuilder.create_arguments elem with
  | .error e => .error e
  | .ok args =>
    match elem.find "doc" with
    | none => .error .attributeError
    | some docElem =>
      match elem.find "shortdoc" with
      | none => .error .attributeError
      | some shortdocElem =>
        let tags := (elem.findall2 "tags" "tag").map XmlElem.text
        let source := pyOrOpt (elem.attr "source") libSource
        match pyIntOfOptDefault (elem.attr "lineno") (-1) with
        | .error e => .error e
        | .ok lineno =>
          .ok { name, args, doc := pyOrEmpty docElem.text,
                shortdoc := pyOrEmpty shortdocElem.text, tags, source, lineno }

/-- Definition of `XmlDocBuilder._create_keywords`. -/
def XmlDocBuilder.create_keywords (spec : XmlElem) (t₁ t₂ : String) (libSource : Option String) :
    Except PyError (List XKeywordDoc) :=
  (spec.findall2 t₁ t₂).mapM (fun e => XmlDocBuilder.create_keyword e libSource)

/-- Modelled from the spec: one typed-dict item as populated by the
variant-B adapter (`TypedDictItem` lives in `libdocpkg.datatypes`, outside
the two source files; §3 "RecordTypeDoc"). -/
structure XTypedDictItemDoc where
  key : Option String
  type : Option String
  required : Option Bool
deriving Repr, DecidableEq

/-- The typed-dict documentation entry produced by the variant-B adapter. -/
structure XTypedDictDoc where
  name : Option String
  doc : String
  items : List XTypedDictItemDoc
deriving Repr, DecidableEq

/-- A data-type documentation entry produced by the variant-B adapter
(enum members are `(name, value)` attribute pairs). -/
inductive XDataTypeDoc where
  | enum (name : Option String) (doc : String) (members : List (Option String × Option String))
  | typedDict (td : XTypedDictDoc)
  | custom (name : Option String) (doc : String)
deriving Repr, DecidableEq

/-- The tri-state `required` of one `<item>`: the attribute is `None` when
absent and is otherwise compared against the string `'true'`. -/
def XmlDocBuilder.requiredOf (item : XmlElem) : Option Bool :=
  (item.attr "required").map (fun s => s = "true")

/-- Definition of `XmlDocBuilder._create_typed_dict_doc`. -/
def XmlDocBuilder.create_typed_dict_doc (elem : XmlElem) : Except PyError XTypedDictDoc :=
  let items := (elem.findall2 "items" "item").map (fun it =>
    { key := it.attr "key", type := it.attr "type",
      required := XmlDocBuilder.requiredOf it : XTypedDictItemDoc })
  match elem.find "doc" with
  | none => .error .attributeError
  | some docElem =>
    .ok { name := elem.attr "name", doc := pyOrEmpty docElem.text, items }

/-- Definition of `XmlDocBuilder._create_enum_doc`. -/
def XmlDocBuilder.create_enum_doc (elem : XmlElem) : Except PyError XDataTypeDoc :=
  match elem.find "doc" with
  | none => .error .attributeError
  | some docElem =>
    .ok (.enum (elem.attr "name") (pyOrEmpty docElem.text)
      ((elem.findall2 "members" "member").map (fun m => (m.attr "name", m.attr "value"))))

/-- Definition of `XmlDocBuilder._create_custom_doc`. -/
def XmlDocBuilder.create_custom_doc (elem : XmlElem) : Except PyError XDataTypeDoc :=
  match elem.find "doc" with
  | none => .error .attributeError
  | some docElem => .ok (.custom (elem.attr "name") (pyOrEmpty docElem.text))

/-- Definition of `XmlDocBuilder._create_data_types`: enums, then typed dicts, then
customs (stored by the caller in a `set` of fresh objects, which keeps
every element; the embedding keeps the concatenation order). -/
def XmlDocBuilder.create_data_types (spec : XmlElem) : Except PyError (List XDataTypeDoc) :=
  match (spec.findall3 "datatypes" "enums" "enum").mapM XmlDocBuilder.create_enum_doc with
  | .error e => .error e
  | .ok enums =>
    match (spec.findall3 "datatypes" "typeddicts" "typeddict").mapM
        XmlDocBuilder.create_typed_dict_doc with
    | .error e => .error e
    | .ok tds =>
      match (spec.findall3 "datatypes" "customs" "custom").mapM
          XmlDocBuilder.create_custom_doc with
      | .error e => .error e
      | .ok cs => .ok (enums ++ tds.map .typedDict ++ cs)

/-- Modelled from the spec: the root documentation model as populated by the
variant-B adapter (`LibraryDoc` lives in `libdocpkg.model`, outside the two
source files; §3 "LibraryDocument"). -/
structure XLibraryDoc where
  name : Option String
  type : String
  version : String
  doc : String
  scope : Option String
  doc_format : String
  source : Option String
  lineno : Int
  inits : List XKeywordDoc
  keywords : List XKeywordDoc
  data_types : List XDataTypeDoc
deriving Repr, DecidableEq

/-- Definition of `XmlDocBuilder._parse_spec` given the parsed tree: the file-existence
check, then the root-tag check, then the schema-version check.  `fs` maps a
path to the parsed root of an existing readable file and to `none` when
`os.path.isfile` is false. -/
def XmlDocBuilder.parse_spec (fs : String → Option XmlElem) (path : String) :
    Except PyError XmlElem :=
  match fs path with
  | none => .error (.dataError ("Spec file '" ++ path ++ "' does not exist."))
  | some root =>
    if root.tag ≠ "keywordspec" then
      .error (.dataError ("Invalid spec file '" ++ path ++ "'."))
    else
      let version := root.attr "specversion"
      if version ≠ some "3" ∧ version ≠ some "4" then
        .error (.dataError ("Invalid spec file version '" ++ pyShowOpt version ++
          "'. Supported versions are 3 and 4."))
      else .ok root

/-- The body of `XmlDocBuilder.build` after `_parse_spec`: the `LibraryDoc`
field expressions in the source's argument order (`spec.get('type').upper()`
on a missing attribute and `spec.find('version').text` /
`spec.find('doc').text` on missing children are `AttributeError`s;
`int(spec.get('lineno')) or -1` is `int(None)`, a `TypeError`, when the
attribute is absent), then inits, keywords and data types. -/
def XmlDocBuilder.buildFromRoot (spec : XmlElem) : Except PyError XLibraryDoc :=
  let name := spec.attr "name"
  match spec.attr "type" with
  | none => .error .attributeError
  | some ty =>
    match spec.find "version" with
    | none => .error .attributeError
    | some versionElem =>
      match spec.find "doc" with
      | none => .error .attributeError
      | some docElem =>
        let scope := spec.attr "scope"
        let doc_format := pyOrEmpty (pyOrOpt (spec.attr "format") (some "ROBOT"))
        let source := spec.attr "source"
        match pyIntOfOpt (spec.attr "lineno") with
        | .error e => .error e
        | .ok n =>
          let lineno := if n = 0 then -1 else n
          match XmlDocBuilder.create_keywords spec "inits" "init" source with
          | .error e => .error e
          | .ok inits =>
            match XmlDocBuilder.create_keywords spec "keywords" "kw" source with
            | .error e => .error e
            | .ok keywords =>
              match XmlDocBuilder.create_data_types spec with
              | .error e => .error e
              | .ok data_types =>
                .ok { name, type := pyUpper ty, version := pyOrEmpty versionElem.text,
                      doc := pyOrEmpty docElem.text, scope, doc_format, source, lineno,
                      inits, keywords, data_types }

/-- Definition of `XmlDocBuilder.build`. -/
def XmlDocBuilder.build (fs : String → Option XmlElem) (path : String) :
    Except PyError XLibraryDoc :=
  match XmlDocBuilder.parse_spec fs path with
  | .error e => .error e
  | .ok root => XmlDocBuilder.buildFromRoot root

/-- Helper `optOr a b` is `a` unless `a` is `none`: the value of a single-name slot
after later writes `a` on top of earlier state `b`. -/
def optOr {ν : Type} (a b : Option ν) : Option ν :=
  match a with
  | some x => some x
  | none => b

/-- The specification's reading of a reconstructed ordered group: the names
of the records carrying the given kind tag, in input order (§4.3/§8). -/
def jsonGroupNames (k : String) (args : List JsonArg) : List String :=
  (args.filter (fun a => a.kind = k)).map JsonArg.name

/-- The specification's reading of a reconstructed single-name slot: the
last name carrying the given kind tag, if any (last write wins, §4.3). -/
def jsonLastVar (k : String) (args : List JsonArg) : Option String :=
  (jsonGroupNames k args).getLast?

/-- The specification's reading of a variant-B reconstructed ordered group:
the name texts of the name-bearing `<arg>` records carrying the given kind
tag, in input order (§4.3/§6). -/
def xmlGroupNames (k : String) (args : List XmlElem) : List (Option String) :=
  args.filterMap (fun a =>
    match a.find "name" with
    | none => none
    | some ne => if a.attr "kind" = some k then some ne.text else none)

/-- The specification's reading of a variant-B single-name slot: the last
name text carrying the given kind tag, if any. -/
def xmlLastVar (k : String) (args : List XmlElem) : Option (Option String) :=
  (xmlGroupNames k args).getLast?

/-- Whether a Python-level failure is the builders' domain-specific
`DataError`. -/
def PyError.isDataError : PyError → Bool
  | .dataError _ => true
  | _ => false

/-- A one-record sequence whose single record is a positional-only
separator carrying an empty type list, as serialized variant-A separator
records do. -/
def c1Args : List JsonArg :=
  [{ name := "_", kind := ArgInfo.POSITIONAL_ONLY_MARKER, types := some [] }]

/-- A named-only separator record with a (degenerate) explicit default. -/
def c1SepJson : JsonArg :=
  { name := "*", kind := ArgInfo.NAMED_ONLY_MARKER, types := some [] }

/-- A variant-B positional-only separator `<arg>`. -/
def c1SepXml : XmlElem :=
  { tag := "arg", attrs := [("kind", ArgInfo.POSITIONAL_ONLY_MARKER)],
    children := [{ tag := "name", text := some "_", children := [] }] }

/-- The state after the variant-A reconstructor processes `c1SepJson`. -/
def c1SpecJson : JArgSpec := { types := some [("*", [])] }

/-- The state after the variant-B reconstructor processes `c1SepXml`. -/
def c1SpecXml : XArgSpec := { types := some [(some "_", [])] }

/-- A variant-A record sequence exercising all seven kinds. -/
def c2JsonArgs : List JsonArg :=
  [{ name := "a", kind := ArgInfo.POSITIONAL_ONLY, types := some [] },
   { name := "_", kind := ArgInfo.POSITIONAL_ONLY_MARKER, types := some [] },
   { name := "b", kind := ArgInfo.POSITIONAL_OR_NAMED,
     defaultValue := some (.s "1"), types := some ["int"] },
   { name := "v", kind := ArgInfo.VAR_POSITIONAL, types := some [] },
   { name := "k", kind := ArgInfo.NAMED_ONLY, types := some [] },
   { name := "kw", kind := ArgInfo.VAR_NAMED, types := some [] }]

/-- The reconstruction of `c2JsonArgs`. -/
def c2JsonSpec : JArgSpec :=
  { positional_only := ["a"], positional_or_named := ["b"], var_positional := some "v",
    named_only := ["k"], var_named := some "kw", defaults := [("b", .s "1")],
    types := some [("a", []), ("_", []), ("b", ["int"]), ("v", []), ("k", []), ("kw", [])] }

/-- A variant-B `<arg>` with a kind attribute and a `<name>` child. -/
def xmlArg (k n : String) : XmlElem :=
  { tag := "arg", attrs := [("kind", k)],
    children := [{ tag := "name", text := some n, children := [] }] }

/-- A variant-B record sequence: a positional-only record, a nameless
record (skipped), and a variadic-named record. -/
def c2XmlArgs : List XmlElem :=
  [xmlArg ArgInfo.POSITIONAL_ONLY "x", { tag := "arg", children := [] },
   xmlArg ArgInfo.VAR_NAMED "kw"]

/-- The reconstruction of `c2XmlArgs`. -/
def c2XmlSpec : XArgSpec :=
  { positional_only := [some "x"], var_named := some (some "kw"),
    types := some [(some "x", []), (some "kw", [])] }

/-- A variant-A positional-or-named record with an explicit default and no
type names. -/
def c3RecP : JsonArg :=
  { name := "p", kind := ArgInfo.POSITIONAL_OR_NAMED,
    defaultValue := some (.b true), types := some [] }

/-- A variant-A named-only record with a type name and no default. -/
def c3RecQ : JsonArg :=
  { name := "q", kind := ArgInfo.NAMED_ONLY, types := some ["str"] }

/-- A two-record variant-A sequence. -/
def c3JsonArgs : List JsonArg := [c3RecP, c3RecQ]

/-- The reconstruction of `c3JsonArgs`. -/
def c3JsonSpec : JArgSpec :=
  { positional_or_named := ["p"], named_only := ["q"], defaults := [("p", .b true)],
    types := some [("p", []), ("q", ["str"])] }

/-- A variant-B positional-or-named `<arg>` named `m` with a default and a
type child. -/
def c3XmlArg : XmlElem :=
  { tag := "arg", attrs := [("kind", ArgInfo.POSITIONAL_OR_NAMED)],
    children := [{ tag := "name", text := some "m", children := [] },
                 { tag := "default", text := some "5", children := [] },
                 { tag := "type", text := some "int", children := [] }] }

/-- The reconstruction of `[c3XmlArg]`. -/
def c3XmlSpec : XArgSpec :=
  { positional_or_named := [some "m"], defaults := [(some "m", "5")],
    types := some [(some "m", [some "int"])] }

/-- A one-record sequence whose record carries an unrecognized kind token. -/
def c4Args : List JsonArg :=
  [{ name := "x", kind := "WEIRD", types := some [] }]

/-- A variant-B `<arg>` with a name child but no kind attribute (its kind
is `None`, outside the seven-token set). -/
def c4XmlBad : XmlElem :=
  { tag := "arg", attrs := [],
    children := [{ tag := "name", text := some "x", children := [] }] }

/-- The claim's separator record, verbatim:
`{"name":"_","kind":"POSITIONAL_ONLY_SEPARATOR"}` — no `"types"` key. -/
def c5SepClaim : JsonArg := { name := "_", kind := ArgInfo.POSITIONAL_ONLY_MARKER }

/-- The second record of the claim's scenario: `y`, positional-or-named,
type `["int"]`, default `5`. -/
def c5ArgY : JsonArg :=
  { name := "y", kind := ArgInfo.POSITIONAL_OR_NAMED
    defaultValue := some (.i 5)
    types := some ["int"] }

/-- The claim's keyword `"Run"`. -/
def c5KwClaim : JsonKw := { name := some "Run", args := [c5SepClaim, c5ArgY] }

/-- The claim's variant-A document. -/
def c5DocClaim : JsonDoc := { name := "Example", keywords := [c5KwClaim] }

/-- The claim's document with the separator record completed to the
serialized shape (`"types": []`). -/
def c5Sep : JsonArg :=
  { name := "_", kind := ArgInfo.POSITIONAL_ONLY_MARKER, types := some [] }

/-- The amended scenario's keyword `"Run"`. -/
def c5Kw : JsonKw := { name := some "Run", args := [c5Sep, c5ArgY] }

/-- The amended scenario's variant-A document. -/
def c5Doc : JsonDoc := { name := "Example", keywords := [c5Kw] }

/-- A parsed tree whose root tag is not `keywordspec`. -/
def c6RootBad : XmlElem := { tag := "wrongroot", children := [] }

/-- A filesystem holding `c6RootBad` at every path. -/
def c6FsBad : String → Option XmlElem := fun _ => some c6RootBad

/-- A `keywordspec` root with unsupported `specversion="9"`. -/
def c6RootVer : XmlElem :=
  { tag := "keywordspec", attrs := [("specversion", "9")], children := [] }

/-- A filesystem holding `c6RootVer` at every path. -/
def c6FsVer : String → Option XmlElem := fun _ => some c6RootVer

/-- An empty variant-A filesystem. -/
def c7FsJson : String → Option JsonDoc := fun _ => none

/-- An empty variant-B filesystem. -/
def c7FsXml : String → Option XmlElem := fun _ => none

/-- A well-formed `keywordspec` root with no `lineno` attribute. -/
def c8Root : XmlElem :=
  { tag := "keywordspec", attrs := [("specversion", "3"), ("type", "LIBRARY")],
    children := [{ tag := "version", children := [] }, { tag := "doc", children := [] }] }

/-- A filesystem holding `c8Root` at every path. -/
def c8Fs : String → Option XmlElem := fun _ => some c8Root

/-- A well-formed `keywordspec` root whose `lineno` attribute is `"0"`. -/
def c8RootW : XmlElem :=
  { tag := "keywordspec",
    attrs := [("specversion", "4"), ("type", "LIBRARY"), ("lineno", "0")],
    children := [{ tag := "version", children := [] }, { tag := "doc", children := [] }] }

/-- A filesystem holding `c8RootW` at every path. -/
def c8FsW : String → Option XmlElem := fun _ => some c8RootW

/-- The document built from `c8RootW`: the raw `lineno` value `"0"` is
normalized to the unknown sentinel `-1`. -/
def c8DocW : XLibraryDoc :=
  { name := none, type := "LIBRARY", version := "", doc := "", scope := none,
    doc_format := "ROBOT", source := none, lineno := -1, inits := [], keywords := [],
    data_types := [] }

/-- A variant-A record type with three items: `required` absent, `true`
and `false`. -/
def c9Json : JsonTypedDict :=
  { name := "TD", doc := "",
    items := [{ key := "k1", type := "int" },
              { key := "k2", type := "int", required := some true },
              { key := "k3", type := "int", required := some false }] }

/-- A variant-B `<item>` with no `required` attribute. -/
def c9Item1 : XmlElem := { tag := "item", attrs := [("key", "k1")], children := [] }

/-- A variant-B `<item>` with `required="true"`. -/
def c9Item2 : XmlElem :=
  { tag := "item", attrs := [("key", "k2"), ("required", "true")], children := [] }

/-- A variant-B `<item>` with `required="false"`. -/
def c9Item3 : XmlElem :=
  { tag := "item", attrs := [("key", "k3"), ("required", "false")], children := [] }

/-- A variant-B `<typeddict>` holding the three items. -/
def c9Xml : XmlElem :=
  { tag := "typeddict", attrs := [("name", "TD")],
    children := [{ tag := "doc", children := [] },
                 { tag := "items", children := [c9Item1, c9Item2, c9Item3] }] }

/-- The typed-dict documentation built from `c9Xml`. -/
def c9Td : XTypedDictDoc :=
  { name := some "TD", doc := "",
    items := [{ key := some "k1", type := none, required := none },
              { key := some "k2", type := none, required := some true },
              { key := some "k3", type := none, required := some false }] }

/-- A variant-B keyword element whose `lineno` attribute is `"0"`. -/
def c10Elem : XmlElem :=
  { tag := "kw", attrs := [("lineno", "0")],
    children := [{ tag := "doc", children := [] }, { tag := "shortdoc", children := [] }] }

/-- The callable documentation built from `c10Elem`: line number 0, not
normalized to `-1`. -/
def c10Kw : XKeywordDoc :=
  { name := "", args := {}, doc := "", shortdoc := "", tags := [], source := none,
    lineno := 0 }

theorem dictGet?_dictSet {κ β : Type} [DecidableEq κ] (d : List (κ × β)) (k n : κ) (v : β) :
    dictGet? (dictSet d k v) n = if n = k then some v else dictGet? d n := by
  induction d with
  | nil =>
    simp only [dictSet, dictGet?]
    by_cases h : n = k
    · simp [h]
    · simp [h, Ne.symm h]
  | cons p rest ih =>
    simp only [dictSet]
    by_cases hpk : p.1 = k
    · simp only [if_pos hpk, dictGet?]
      by_cases hnk : n = k
      · simp [hnk]
      · simp only [if_neg hnk]
        have : ¬(k = n) := fun h => hnk h.symm
        simp only [if_neg this]
        have : ¬(p.1 = n) := by rw [hpk]; exact this
        simp [dictGet?, this]
    · simp only [if_neg hpk, dictGet?]
      by_cases hpn : p.1 = n
      · have hnk : ¬(n = k) := by
          intro h; exact hpk (by rw [hpn, h])
        simp [hpn, hnk]
      · simp [hpn, ih]

theorem dictGet?_dictSet_isSome {κ β : Type} [DecidableEq κ] (d : List (κ × β)) (k n : κ) (v : β) :
    (dictGet? (dictSet d k v) n).isSome = true ↔ (n = k ∨ (dictGet? d n).isSome = true) := by
  rw [dictGet?_dictSet]
  by_cases h : n = k <;> simp [h]

theorem optOr_none_right {ν : Type} (a : Option ν) : optOr a none = a := by
  cases a <;> simp [optOr]

theorem optOr_assoc {ν : Type} (a b c : Option ν) :
    optOr (optOr a b) c = optOr a (optOr b c) := by
  cases a <;> simp [optOr]

theorem getLast?_append_optOr {ν : Type} (l₁ l₂ : List ν) :
    (l₁ ++ l₂).getLast? = optOr l₂.getLast? l₁.getLast? := by
  cases l₂ with
  | nil => simp [optOr]
  | cons b bs =>
    rw [List.getLast?_append_of_ne_nil _ (by simp)]
    cases hbs : (b :: bs).getLast? with
    | none => simp [List.getLast?] at hbs
    | some x => simp [optOr]

theorem jsonGroupNames_cons (k : String) (a : JsonArg) (rest : List JsonArg) :
    jsonGroupNames k (a :: rest) =
      (if a.kind = k then [a.name] else []) ++ jsonGroupNames k rest := by
  by_cases h : a.kind = k <;> simp [jsonGroupNames, h]

theorem jsonLastVar_cons (k : String) (a : JsonArg) (rest : List JsonArg) :
    jsonLastVar k (a :: rest) =
      optOr (jsonLastVar k rest) (if a.kind = k then some a.name else none) := by
  unfold jsonLastVar
  rw [jsonGroupNames_cons, getLast?_append_optOr]
  by_cases h : a.kind = k <;> simp [h, List.getLast?]

theorem dictGet?_types_getD {ν τ α : Type} [DecidableEq ν] (s : ArgumentSpec ν τ α) (n : ν) :
    dictGet? (s.types.getD []) n = s.typesGet? n := by
  cases h : s.types <;> simp [ArgumentSpec.typesGet?, h, dictGet?]

theorem ArgumentSpec.typesGet?_some {ν τ α : Type} [DecidableEq ν] {s : ArgumentSpec ν τ α}
    {d : List (ν × List τ)} (h : s.types = some d) (n : ν) :
    s.typesGet? n = dictGet? d n := by
  simp [ArgumentSpec.typesGet?, h]

namespace JsonDocBuilder

theorem setterApply_ok_char {s s' : JArgSpec} {k n : String}
    (h : setterApply s k n = .ok s') :
    s'.positional_only = s.positional_only ++ (if k = ArgInfo.POSITIONAL_ONLY then [n] else []) ∧
    s'.positional_or_named =
      s.positional_or_named ++ (if k = ArgInfo.POSITIONAL_OR_NAMED then [n] else []) ∧
    s'.named_only = s.named_only ++ (if k = ArgInfo.NAMED_ONLY then [n] else []) ∧
    s'.var_positional = (if k = ArgInfo.VAR_POSITIONAL then some n else s.var_positional) ∧
    s'.var_named = (if k = ArgInfo.VAR_NAMED then some n else s.var_named) ∧
    s'.defaults = s.defaults ∧
    s'.types = s.types := by
  unfold setterApply at h
  split_ifs at h with h1 h2 h3 h4 h5 h6 h7 <;>
    first
      | (injection h with h; subst h; subst_vars;
         simp [ArgInfo.POSITIONAL_ONLY, ArgInfo.POSITIONAL_ONLY_MARKER,
           ArgInfo.POSITIONAL_OR_NAMED, ArgInfo.VAR_POSITIONAL, ArgInfo.NAMED_ONLY_MARKER,
           ArgInfo.NAMED_ONLY, ArgInfo.VAR_NAMED])
      | simp at h

theorem setterApply_ok_kind_mem {s s' : JArgSpec} {k n : String}
    (h : setterApply s k n = .ok s') : k ∈ sevenKinds := by
  unfold setterApply at h
  split_ifs at h with h1 h2 h3 h4 h5 h6 h7 <;>
    first
      | (subst_vars; simp [sevenKinds])
      | simp at h

theorem setterApply_error {s : JArgSpec} {k n : String} {e : PyError}
    (h : setterApply s k n = .error e) : e = .keyError k := by
  unfold setterApply at h
  split_ifs at h <;> (injection h with h) <;> exact h.symm

theorem setterApply_ok_of_mem {s : JArgSpec} {k : String} (n : String)
    (hk : k ∈ sevenKinds) : ∃ s', setterApply s k n = .ok s' := by
  simp only [sevenKinds, List.mem_cons, List.mem_singleton, List.not_mem_nil, or_false] at hk
  rcases hk with h | h | h | h | h | h | h <;> subst h <;> exact ⟨_, rfl⟩

theorem processArg_ok_char {s s' : JArgSpec} {a : JsonArg}
    (h : processArg s a = .ok s') :
    (∃ ts, a.types = some ts ∧
      s'.types = some (dictSet (s.types.getD []) a.name ts)) ∧
    s'.positional_only =
      s.positional_only ++ (if a.kind = ArgInfo.POSITIONAL_ONLY then [a.name] else []) ∧
    s'.positional_or_named =
      s.positional_or_named ++ (if a.kind = ArgInfo.POSITIONAL_OR_NAMED then [a.name] else []) ∧
    s'.named_only = s.named_only ++ (if a.kind = ArgInfo.NAMED_ONLY then [a.name] else []) ∧
    s'.var_positional = (if a.kind = ArgInfo.VAR_POSITIONAL then some a.name else s.var_positional) ∧
    s'.var_named = (if a.kind = ArgInfo.VAR_NAMED then some a.name else s.var_named) ∧
    (a.defaultValue = none → s'.defaults = s.defaults) ∧
    (∀ v, a.defaultValue = some v → s'.defaults = dictSet s.defaults a.name v) := by
  unfold processArg at h
  cases hset : setterApply s a.kind a.name with
  | error e => rw [hset] at h; exact absurd h (by simp)
  | ok s₁ =>
    rw [hset] at h
    obtain ⟨c1, c2, c3, c4, c5, c6, c7⟩ := setterApply_ok_char hset
    cases hts : a.types with
    | none => rw [hts] at h; exact absurd h (by simp)
    | some ts =>
      rw [hts] at h
      cases hdv : a.defaultValue with
      | some v =>
        rw [hdv] at h
        injection h with h
        subst h
        refine ⟨⟨ts, rfl, by simp [c7]⟩, by simp [c1], by simp [c2], by simp [c3],
          by simp [c4], by simp [c5], by simp, ?_⟩
        intro w hw
        injection hw with hw
        subst hw
        simp [c6]
      | none =>
        rw [hdv] at h
        injection h with h
        subst h
        exact ⟨⟨ts, rfl, by simp [c7]⟩, by simp [c1], by simp [c2], by simp [c3],
          by simp [c4], by simp [c5], fun _ => by simp [c6], fun w hw => by simp at hw⟩

theorem processArg_ok_kind_mem {s s' : JArgSpec} {a : JsonArg}
    (h : processArg s a = .ok s') : a.kind ∈ sevenKinds := by
  unfold processArg at h
  cases hset : setterApply s a.kind a.name with
  | error e => rw [hset] at h; exact absurd h (by simp)
  | ok s₁ => exact setterApply_ok_kind_mem hset

theorem processArg_error_keyError {s : JArgSpec} {a : JsonArg} {e : PyError}
    (h : processArg s a = .error e) : ∃ key, e = .keyError key := by
  unfold processArg at h
  cases hset : setterApply s a.kind a.name with
  | error e' =>
    rw [hset] at h
    injection h with h
    exact ⟨a.kind, by rw [← h, setterApply_error hset]⟩
  | ok s₁ =>
    rw [hset] at h
    cases hts : a.types with
    | none =>
      rw [hts] at h
      injection h with h
      exact ⟨"types", h.symm⟩
    | some ts =>
      rw [hts] at h
      cases hdv : a.defaultValue <;> rw [hdv] at h <;> exact absurd h (by simp)

theorem processArg_ok_of_wf {s : JArgSpec} {a : JsonArg}
    (hk : a.kind ∈ sevenKinds) (ht : a.types.isSome) :
    ∃ s', processArg s a = .ok s' := by
  obtain ⟨ts, hts⟩ := Option.isSome_iff_exists.mp ht
  obtain ⟨s₁, hs₁⟩ := setterApply_ok_of_mem (s := s) a.name hk
  unfold processArg
  rw [hs₁, hts]
  cases hdv : a.defaultValue <;> exact ⟨_, rfl⟩

theorem createArgumentsAux_groups {args : List JsonArg} {s₀ s : JArgSpec}
    (h : createArgumentsAux s₀ args = .ok s) :
    s.positional_only = s₀.positional_only ++ jsonGroupNames ArgInfo.POSITIONAL_ONLY args ∧
    s.positional_or_named =
      s₀.positional_or_named ++ jsonGroupNames ArgInfo.POSITIONAL_OR_NAMED args ∧
    s.named_only = s₀.named_only ++ jsonGroupNames ArgInfo.NAMED_ONLY args ∧
    s.var_positional = optOr (jsonLastVar ArgInfo.VAR_POSITIONAL args) s₀.var_positional ∧
    s.var_named = optOr (jsonLastVar ArgInfo.VAR_NAMED args) s₀.var_named := by
  induction args generalizing s₀ with
  | nil =>
    unfold createArgumentsAux at h
    injection h with h
    subst h
    simp [jsonGroupNames, jsonLastVar, optOr]
  | cons a rest ih =>
    unfold createArgumentsAux at h
    cases hp : processArg s₀ a with
    | error e => rw [hp] at h; exact absurd h (by simp)
    | ok s₁ =>
      rw [hp] at h
      obtain ⟨_, c1, c2, c3, c4, c5, _, _⟩ := processArg_ok_char hp
      obtain ⟨i1, i2, i3, i4, i5⟩ := ih h
      refine ⟨?_, ?_, ?_, ?_, ?_⟩
      · rw [i1, c1, jsonGroupNames_cons, List.append_assoc]
      · rw [i2, c2, jsonGroupNames_cons, List.append_assoc]
      · rw [i3, c3, jsonGroupNames_cons, List.append_assoc]
      · rw [i4, c4, jsonLastVar_cons, optOr_assoc]
        by_cases hvp : a.kind = ArgInfo.VAR_POSITIONAL <;> simp [hvp, optOr]
      · rw [i5, c5, jsonLastVar_cons, optOr_assoc]
        by_cases hvn : a.kind = ArgInfo.VAR_NAMED <;> simp [hvn, optOr]

theorem createArgumentsAux_defaults {args : List JsonArg} {s₀ s : JArgSpec}
    (h : createArgumentsAux s₀ args = .ok s) (n : String) :
    (dictGet? s.defaults n).isSome = true ↔
      ((dictGet? s₀.defaults n).isSome = true ∨
        ∃ a ∈ args, a.name = n ∧ a.defaultValue.isSome = true) := by
  induction args generalizing s₀ with
  | nil =>
    unfold createArgumentsAux at h
    injection h with h
    subst h
    simp
  | cons a rest ih =>
    unfold createArgumentsAux at h
    cases hp : processArg s₀ a with
    | error e => rw [hp] at h; exact absurd h (by simp)
    | ok s₁ =>
      rw [hp] at h
      obtain ⟨_, _, _, _, _, _, d1, d2⟩ := processArg_ok_char hp
      rw [ih h]
      cases hdv : a.defaultValue with
      | none =>
        rw [d1 hdv]
        constructor
        · rintro (hs | ⟨b, hb, hbn, hbd⟩)
          · exact Or.inl hs
          · exact Or.inr ⟨b, List.mem_cons_of_mem a hb, hbn, hbd⟩
        · rintro (hs | ⟨b, hb, hbn, hbd⟩)
          · exact Or.inl hs
          · rcases List.mem_cons.mp hb with rfl | hb
            · rw [hdv] at hbd; simp at hbd
            · exact Or.inr ⟨b, hb, hbn, hbd⟩
      | some v =>
        rw [d2 v hdv, dictGet?_dictSet_isSome]
        constructor
        · rintro ((rfl | hs) | ⟨b, hb, hbn, hbd⟩)
          · exact Or.inr ⟨a, List.mem_cons_self a rest, rfl, by simp [hdv]⟩
          · exact Or.inl hs
          · exact Or.inr ⟨b, List.mem_cons_of_mem a hb, hbn, hbd⟩
        · rintro (hs | ⟨b, hb, hbn, hbd⟩)
          · exact Or.inl (Or.inr hs)
          · rcases List.mem_cons.mp hb with rfl | hb
            · exact Or.inl (Or.inl hbn.symm)
            · exact Or.inr ⟨b, hb, hbn, hbd⟩

theorem createArgumentsAux_typesGet_mono {args : List JsonArg} {s₀ s : JArgSpec}
    (h : createArgumentsAux s₀ args = .ok s) (n : String)
    (hn : (s₀.typesGet? n).isSome = true) : (s.typesGet? n).isSome = true := by
  induction args generalizing s₀ with
  | nil =>
    unfold createArgumentsAux at h
    injection h with h
    subst h
    exact hn
  | cons a rest ih =>
    unfold createArgumentsAux at h
    cases hp : processArg s₀ a with
    | error e => rw [hp] at h; exact absurd h (by simp)
    | ok s₁ =>
      rw [hp] at h
      obtain ⟨⟨ts, _, t2⟩, _⟩ := processArg_ok_char hp
      refine ih h ?_
      rw [ArgumentSpec.typesGet?_some t2, dictGet?_dictSet_isSome, dictGet?_types_getD]
      exact Or.inr hn

theorem createArgumentsAux_typesGet_mem {args : List JsonArg} {s₀ s : JArgSpec}
    (h : createArgumentsAux s₀ args = .ok s) {a : JsonArg} (ha : a ∈ args) :
    (s.typesGet? a.name).isSome = true := by
  induction args generalizing s₀ with
  | nil => simp at ha
  | cons b rest ih =>
    unfold createArgumentsAux at h
    cases hp : processArg s₀ b with
    | error e => rw [hp] at h; exact absurd h (by simp)
    | ok s₁ =>
      rw [hp] at h
      rcases List.mem_cons.mp ha with rfl | ha
      · obtain ⟨⟨ts, _, t2⟩, _⟩ := processArg_ok_char hp
        refine createArgumentsAux_typesGet_mono h a.name ?_
        rw [ArgumentSpec.typesGet?_some t2, dictGet?_dictSet_isSome]
        exact Or.inl rfl
      · exact ih h ha

theorem createArgumentsAux_typesGet_empty {args : List JsonArg} {s₀ s : JArgSpec}
    (h : createArgumentsAux s₀ args = .ok s) (n : String)
    (h₀ : s₀.typesGet? n = none ∨ s₀.typesGet? n = some [])
    (hall : ∀ b ∈ args, b.name = n → b.types = some []) :
    s.typesGet? n = none ∨ s.typesGet? n = some [] := by
  induction args generalizing s₀ with
  | nil =>
    unfold createArgumentsAux at h
    injection h with h
    subst h
    exact h₀
  | cons a rest ih =>
    unfold createArgumentsAux at h
    cases hp : processArg s₀ a with
    | error e => rw [hp] at h; exact absurd h (by simp)
    | ok s₁ =>
      rw [hp] at h
      obtain ⟨⟨ts, t1, t2⟩, _⟩ := processArg_ok_char hp
      refine ih h ?_ (fun b hb => hall b (List.mem_cons_of_mem a hb))
      rw [ArgumentSpec.typesGet?_some t2, dictGet?_dictSet, dictGet?_types_getD]
      by_cases hna : n = a.name
      · have := hall a (List.mem_cons_self a rest) hna.symm
        rw [t1] at this
        injection this with this
        simp [hna, this]
      · simp only [if_neg hna]
        exact h₀

theorem createArgumentsAux_error_keyError {args : List JsonArg} {s₀ : JArgSpec} {e : PyError}
    (h : createArgumentsAux s₀ args = .error e) : ∃ key, e = .keyError key := by
  induction args generalizing s₀ with
  | nil => simp [createArgumentsAux] at h
  | cons a rest ih =>
    unfold createArgumentsAux at h
    cases hp : processArg s₀ a with
    | error e' =>
      rw [hp] at h
      injection h with h
      subst h
      exact processArg_error_keyError hp
    | ok s₁ =>
      rw [hp] at h
      exact ih h

theorem createArgumentsAux_ok_kinds {args : List JsonArg} {s₀ s : JArgSpec}
    (h : createArgumentsAux s₀ args = .ok s) : ∀ a ∈ args, a.kind ∈ sevenKinds := by
  induction args generalizing s₀ with
  | nil => intro a ha; simp at ha
  | cons b rest ih =>
    unfold createArgumentsAux at h
    cases hp : processArg s₀ b with
    | error e => rw [hp] at h; exact absurd h (by simp)
    | ok s₁ =>
      rw [hp] at h
      intro a ha
      rcases List.mem_cons.mp ha with rfl | ha
      · exact processArg_ok_kind_mem hp
      · exact ih h a ha

theorem createArgumentsAux_ok_of_wf {args : List JsonArg} {s₀ : JArgSpec}
    (hwf : ∀ a ∈ args, a.kind ∈ sevenKinds ∧ a.types.isSome = true) :
    ∃ s, createArgumentsAux s₀ args = .ok s := by
  induction args generalizing s₀ with
  | nil => exact ⟨s₀, rfl⟩
  | cons a rest ih =>
    obtain ⟨hk, ht⟩ := hwf a (List.mem_cons_self a rest)
    obtain ⟨s₁, hs₁⟩ := processArg_ok_of_wf (s := s₀) hk ht
    obtain ⟨s, hs⟩ := ih (fun b hb => hwf b (List.mem_cons_of_mem a hb))
    exact ⟨s, by unfold createArgumentsAux; rw [hs₁]; exact hs⟩

end JsonDocBuilder

theorem xmlGroupNames_cons (k : String) (a : XmlElem) (rest : List XmlElem) :
    xmlGroupNames k (a :: rest) =
      (match a.find "name" with
       | none => []
       | some ne => if a.attr "kind" = some k then [ne.text] else []) ++
        xmlGroupNames k rest := by
  cases hne : a.find "name" with
  | none => simp [xmlGroupNames, hne]
  | some ne =>
    by_cases hk : a.attr "kind" = some k <;> simp [xmlGroupNames, hne, hk]

theorem xmlLastVar_cons (k : String) (a : XmlElem) (rest : List XmlElem) :
    xmlLastVar k (a :: rest) =
      optOr (xmlLastVar k rest)
        (match a.find "name" with
         | none => none
         | some ne => if a.attr "kind" = some k then some ne.text else none) := by
  unfold xmlLastVar
  rw [xmlGroupNames_cons, getLast?_append_optOr]
  cases hne : a.find "name" with
  | none => simp [List.getLast?]
  | some ne =>
    by_cases hk : a.attr "kind" = some k <;> simp [hk, List.getLast?]

namespace XmlDocBuilder

theorem xml_setterApply_ok_char {s s' : XArgSpec} {k : Option String} {n : Option String}
    (h : setterApply s k n = .ok s') :
    s'.positional_only =
      s.positional_only ++ (if k = some ArgInfo.POSITIONAL_ONLY then [n] else []) ∧
    s'.positional_or_named =
      s.positional_or_named ++ (if k = some ArgInfo.POSITIONAL_OR_NAMED then [n] else []) ∧
    s'.named_only = s.named_only ++ (if k = some ArgInfo.NAMED_ONLY then [n] else []) ∧
    s'.var_positional = (if k = some ArgInfo.VAR_POSITIONAL then some n else s.var_positional) ∧
    s'.var_named = (if k = some ArgInfo.VAR_NAMED then some n else s.var_named) ∧
    s'.defaults = s.defaults ∧
    s'.types = s.types := by
  unfold setterApply at h
  split_ifs at h with h1 h2 h3 h4 h5 h6 h7 <;>
    first
      | (injection h with h; subst h; subst_vars;
         simp [ArgInfo.POSITIONAL_ONLY, ArgInfo.POSITIONAL_ONLY_MARKER,
           ArgInfo.POSITIONAL_OR_NAMED, ArgInfo.VAR_POSITIONAL, ArgInfo.NAMED_ONLY_MARKER,
           ArgInfo.NAMED_ONLY, ArgInfo.VAR_NAMED])
      | simp at h

theorem xml_setterApply_ok_kind_mem {s s' : XArgSpec} {k : Option String} {n : Option String}
    (h : setterApply s k n = .ok s') : ∃ k₀ ∈ sevenKinds, k = some k₀ := by
  unfold setterApply at h
  split_ifs at h with h1 h2 h3 h4 h5 h6 h7 <;>
    first
      | (subst_vars; exact ⟨_, by simp [sevenKinds], rfl⟩)
      | simp at h

theorem xml_setterApply_error {s : XArgSpec} {k : Option String} {n : Option String} {e : PyError}
    (h : setterApply s k n = .error e) : e = .keyError (pyShowOpt k) := by
  unfold setterApply at h
  split_ifs at h <;> (injection h with h) <;> exact h.symm

theorem xml_setterApply_ok_of_mem {s : XArgSpec} {k₀ : String} (n : Option String)
    (hk : k₀ ∈ sevenKinds) : ∃ s', setterApply s (some k₀) n = .ok s' := by
  simp only [sevenKinds, List.mem_cons, List.mem_singleton, List.not_mem_nil, or_false] at hk
  rcases hk with h | h | h | h | h | h | h <;> subst h <;> exact ⟨_, rfl⟩

theorem xml_processArg_ok_char {s s' : XArgSpec} {a : XmlElem}
    (h : processArg s a = .ok s') :
    (a.find "name" = none ∧ s' = s) ∨
    (∃ ne, a.find "name" = some ne ∧
      s'.types =
        some (dictSet (s.types.getD []) ne.text ((a.findall "type").map XmlElem.text)) ∧
      s'.positional_only = s.positional_only ++
        (if a.attr "kind" = some ArgInfo.POSITIONAL_ONLY then [ne.text] else []) ∧
      s'.positional_or_named = s.positional_or_named ++
        (if a.attr "kind" = some ArgInfo.POSITIONAL_OR_NAMED then [ne.text] else []) ∧
      s'.named_only = s.named_only ++
        (if a.attr "kind" = some ArgInfo.NAMED_ONLY then [ne.text] else []) ∧
      s'.var_positional =
        (if a.attr "kind" = some ArgInfo.VAR_POSITIONAL then some ne.text
         else s.var_positional) ∧
      s'.var_named =
        (if a.attr "kind" = some ArgInfo.VAR_NAMED then some ne.text else s.var_named) ∧
      (a.find "default" = none → s'.defaults = s.defaults) ∧
      (∀ de, a.find "default" = some de →
        s'.defaults = dictSet s.defaults ne.text (pyOrEmpty de.text))) := by
  unfold processArg at h
  cases hne : a.find "name" with
  | none =>
    rw [hne] at h
    injection h with h
    exact Or.inl ⟨rfl, h.symm⟩
  | some ne =>
    rw [hne] at h
    dsimp only at h
    cases hset : setterApply s (a.attr "kind") ne.text with
    | error e => rw [hset] at h; exact absurd h (by simp)
    | ok s₁ =>
      rw [hset] at h
      obtain ⟨c1, c2, c3, c4, c5, c6, c7⟩ := xml_setterApply_ok_char hset
      cases hde : a.find "default" with
      | some de =>
        rw [hde] at h
        injection h with h
        subst h
        refine Or.inr ⟨ne, rfl, by simp [c7], by simp [c1], by simp [c2], by simp [c3],
          by simp [c4], by simp [c5], by simp, ?_⟩
        intro de' hde'
        injection hde' with hde'
        subst hde'
        simp [c6]
      | none =>
        rw [hde] at h
        injection h with h
        subst h
        exact Or.inr ⟨ne, rfl, by simp [c7], by simp [c1], by simp [c2], by simp [c3],
          by simp [c4], by simp [c5], fun _ => by simp [c6], fun de' hde' => by simp at hde'⟩

theorem xml_processArg_ok_kind_mem {s s' : XArgSpec} {a : XmlElem}
    (h : processArg s a = .ok s') {ne : XmlElem} (hne : a.find "name" = some ne) :
    ∃ k₀ ∈ sevenKinds, a.attr "kind" = some k₀ := by
  unfold processArg at h
  rw [hne] at h
  dsimp only at h
  cases hset : setterApply s (a.attr "kind") ne.text with
  | error e => rw [hset] at h; exact absurd h (by simp)
  | ok s₁ => exact xml_setterApply_ok_kind_mem hset

theorem xml_processArg_error_keyError {s : XArgSpec} {a : XmlElem} {e : PyError}
    (h : processArg s a = .error e) : ∃ key, e = .keyError key := by
  unfold processArg at h
  cases hne : a.find "name" with
  | none => rw [hne] at h; exact absurd h (by simp)
  | some ne =>
    rw [hne] at h
    dsimp only at h
    cases hset : setterApply s (a.attr "kind") ne.text with
    | error e' =>
      rw [hset] at h
      injection h with h
      exact ⟨pyShowOpt (a.attr "kind"), by rw [← h, xml_setterApply_error hset]⟩
    | ok s₁ =>
      rw [hset] at h
      cases hde : a.find "default" with
      | some de => rw [hde] at h; exact absurd h (by simp)
      | none => rw [hde] at h; exact absurd h (by simp)

theorem xml_processArg_ok_of_wf {s : XArgSpec} {a : XmlElem}
    (hk : ∀ ne, a.find "name" = some ne → ∃ k₀ ∈ sevenKinds, a.attr "kind" = some k₀) :
    ∃ s', processArg s a = .ok s' := by
  unfold processArg
  cases hne : a.find "name" with
  | none => exact ⟨s, rfl⟩
  | some ne =>
    obtain ⟨k₀, hk₀, hkk⟩ := hk ne hne
    obtain ⟨s₁, hs₁⟩ := xml_setterApply_ok_of_mem (s := s) ne.text hk₀
    dsimp only
    rw [hkk, hs₁]
    cases hde : a.find "default" with
    | some de => exact ⟨_, rfl⟩
    | none => exact ⟨_, rfl⟩

theorem xml_createArgumentsAux_groups {args : List XmlElem} {s₀ s : XArgSpec}
    (h : createArgumentsAux s₀ args = .ok s) :
    s.positional_only = s₀.positional_only ++ xmlGroupNames ArgInfo.POSITIONAL_ONLY args ∧
    s.positional_or_named =
      s₀.positional_or_named ++ xmlGroupNames ArgInfo.POSITIONAL_OR_NAMED args ∧
    s.named_only = s₀.named_only ++ xmlGroupNames ArgInfo.NAMED_ONLY args ∧
    s.var_positional = optOr (xmlLastVar ArgInfo.VAR_POSITIONAL args) s₀.var_positional ∧
    s.var_named = optOr (xmlLastVar ArgInfo.VAR_NAMED args) s₀.var_named := by
  induction args generalizing s₀ with
  | nil =>
    unfold createArgumentsAux at h
    injection h with h
    subst h
    simp [xmlGroupNames, xmlLastVar, optOr]
  | cons a rest ih =>
    unfold createArgumentsAux at h
    cases hp : processArg s₀ a with
    | error e => rw [hp] at h; exact absurd h (by simp)
    | ok s₁ =>
      rw [hp] at h
      obtain ⟨i1, i2, i3, i4, i5⟩ := ih h
      rcases xml_processArg_ok_char hp with ⟨hne, rfl⟩ | ⟨ne, hne, _, c1, c2, c3, c4, c5, _, _⟩
      · refine ⟨?_, ?_, ?_, ?_, ?_⟩ <;>
          simp [i1, i2, i3, i4, i5, xmlGroupNames_cons, xmlLastVar_cons, hne, optOr_none_right]
      · refine ⟨?_, ?_, ?_, ?_, ?_⟩
        · rw [i1, c1, xmlGroupNames_cons, hne, List.append_assoc]
        · rw [i2, c2, xmlGroupNames_cons, hne, List.append_assoc]
        · rw [i3, c3, xmlGroupNames_cons, hne, List.append_assoc]
        · rw [i4, c4, xmlLastVar_cons, hne, optOr_assoc]
          by_cases hvp : a.attr "kind" = some ArgInfo.VAR_POSITIONAL <;> simp [hvp, optOr]
        · rw [i5, c5, xmlLastVar_cons, hne, optOr_assoc]
          by_cases hvn : a.attr "kind" = some ArgInfo.VAR_NAMED <;> simp [hvn, optOr]

theorem xml_createArgumentsAux_defaults {args : List XmlElem} {s₀ s : XArgSpec}
    (h : createArgumentsAux s₀ args = .ok s) (n : Option String) :
    (dictGet? s.defaults n).isSome = true ↔
      ((dictGet? s₀.defaults n).isSome = true ∨
        ∃ a ∈ args, ∃ ne, a.find "name" = some ne ∧ ne.text = n ∧
          (a.find "default").isSome = true) := by
  induction args generalizing s₀ with
  | nil =>
    unfold createArgumentsAux at h
    injection h with h
    subst h
    simp
  | cons a rest ih =>
    unfold createArgumentsAux at h
    cases hp : processArg s₀ a with
    | error e => rw [hp] at h; exact absurd h (by simp)
    | ok s₁ =>
      rw [hp] at h
      rw [ih h]
      rcases xml_processArg_ok_char hp with ⟨hne, rfl⟩ | ⟨ne, hne, _, _, _, _, _, _, d1, d2⟩
      · constructor
        · rintro (hs | ⟨b, hb, hres⟩)
          · exact Or.inl hs
          · exact Or.inr ⟨b, List.mem_cons_of_mem a hb, hres⟩
        · rintro (hs | ⟨b, hb, nb, hnb, hnbt, hnbd⟩)
          · exact Or.inl hs
          · rcases List.mem_cons.mp hb with rfl | hb
            · rw [hne] at hnb; simp at hnb
            · exact Or.inr ⟨b, hb, nb, hnb, hnbt, hnbd⟩
      · cases hde : a.find "default" with
        | none =>
          rw [d1 hde]
          constructor
          · rintro (hs | ⟨b, hb, hres⟩)
            · exact Or.inl hs
            · exact Or.inr ⟨b, List.mem_cons_of_mem a hb, hres⟩
          · rintro (hs | ⟨b, hb, nb, hnb, hnbt, hnbd⟩)
            · exact Or.inl hs
            · rcases List.mem_cons.mp hb with rfl | hb
              · rw [hde] at hnbd; simp at hnbd
              · exact Or.inr ⟨b, hb, nb, hnb, hnbt, hnbd⟩
        | some de =>
          rw [d2 de hde, dictGet?_dictSet_isSome]
          constructor
          · rintro ((rfl | hs) | ⟨b, hb, hres⟩)
            · exact Or.inr ⟨a, List.mem_cons_self a rest, ne, hne, rfl, by simp [hde]⟩
            · exact Or.inl hs
            · exact Or.inr ⟨b, List.mem_cons_of_mem a hb, hres⟩
          · rintro (hs | ⟨b, hb, nb, hnb, hnbt, hnbd⟩)
            · exact Or.inl (Or.inr hs)
            · rcases List.mem_cons.mp hb with rfl | hb
              · rw [hne] at hnb
                injection hnb with hnb
                subst hnb
                exact Or.inl (Or.inl hnbt.symm)
              · exact Or.inr ⟨b, hb, nb, hnb, hnbt, hnbd⟩

theorem xml_createArgumentsAux_typesGet_mono {args : List XmlElem} {s₀ s : XArgSpec}
    (h : createArgumentsAux s₀ args = .ok s) (n : Option String)
    (hn : (s₀.typesGet? n).isSome = true) : (s.typesGet? n).isSome = true := by
  induction args generalizing s₀ with
  | nil =>
    unfold createArgumentsAux at h
    injection h with h
    subst h
    exact hn
  | cons a rest ih =>
    unfold createArgumentsAux at h
    cases hp : processArg s₀ a with
    | error e => rw [hp] at h; exact absurd h (by simp)
    | ok s₁ =>
      rw [hp] at h
      rcases xml_processArg_ok_char hp with ⟨_, rfl⟩ | ⟨ne, hne, t2, _⟩
      · exact ih h hn
      · refine ih h ?_
        rw [ArgumentSpec.typesGet?_some t2, dictGet?_dictSet_isSome, dictGet?_types_getD]
        exact Or.inr hn

theorem xml_createArgumentsAux_typesGet_mem {args : List XmlElem} {s₀ s : XArgSpec}
    (h : createArgumentsAux s₀ args = .ok s) {a : XmlElem} (ha : a ∈ args)
    {ne : XmlElem} (hne : a.find "name" = some ne) :
    (s.typesGet? ne.text).isSome = true := by
  induction args generalizing s₀ with
  | nil => simp at ha
  | cons b rest ih =>
    unfold createArgumentsAux at h
    cases hp : processArg s₀ b with
    | error e => rw [hp] at h; exact absurd h (by simp)
    | ok s₁ =>
      rw [hp] at h
      rcases List.mem_cons.mp ha with rfl | ha
      · rcases xml_processArg_ok_char hp with ⟨hn, rfl⟩ | ⟨ne', hne', t2, _⟩
        · rw [hne] at hn; simp at hn
        · rw [hne] at hne'
          injection hne' with hne'
          subst hne'
          refine xml_createArgumentsAux_typesGet_mono h ne.text ?_
          rw [ArgumentSpec.typesGet?_some t2, dictGet?_dictSet_isSome]
          exact Or.inl rfl
      · exact ih h ha

theorem xml_createArgumentsAux_typesGet_empty {args : List XmlElem} {s₀ s : XArgSpec}
    (h : createArgumentsAux s₀ args = .ok s) (n : Option String)
    (h₀ : s₀.typesGet? n = none ∨ s₀.typesGet? n = some [])
    (hall : ∀ b ∈ args, ∀ nb, b.find "name" = some nb → nb.text = n →
      (b.findall "type").map XmlElem.text = []) :
    s.typesGet? n = none ∨ s.typesGet? n = some [] := by
  induction args generalizing s₀ with
  | nil =>
    unfold createArgumentsAux at h
    injection h with h
    subst h
    exact h₀
  | cons a rest ih =>
    unfold createArgumentsAux at h
    cases hp : processArg s₀ a with
    | error e => rw [hp] at h; exact absurd h (by simp)
    | ok s₁ =>
      rw [hp] at h
      refine ih h ?_ (fun b hb => hall b (List.mem_cons_of_mem a hb))
      rcases xml_processArg_ok_char hp with ⟨_, rfl⟩ | ⟨ne, hne, t2, _⟩
      · exact h₀
      · rw [ArgumentSpec.typesGet?_some t2, dictGet?_dictSet, dictGet?_types_getD]
        by_cases hna : n = ne.text
        · have := hall a (List.mem_cons_self a rest) ne hne hna.symm
          simp [hna, this]
        · simp only [if_neg hna]
          exact h₀

theorem xml_createArgumentsAux_error_keyError {args : List XmlElem} {s₀ : XArgSpec} {e : PyError}
    (h : createArgumentsAux s₀ args = .error e) : ∃ key, e = .keyError key := by
  induction args generalizing s₀ with
  | nil => simp [createArgumentsAux] at h
  | cons a rest ih =>
    unfold createArgumentsAux at h
    cases hp : processArg s₀ a with
    | error e' =>
      rw [hp] at h
      injection h with h
      subst h
      exact xml_processArg_error_keyError hp
    | ok s₁ =>
      rw [hp] at h
      exact ih h

theorem xml_createArgumentsAux_ok_kinds {args : List XmlElem} {s₀ s : XArgSpec}
    (h : createArgumentsAux s₀ args = .ok s) :
    ∀ a ∈ args, ∀ ne, a.find "name" = some ne →
      ∃ k₀ ∈ sevenKinds, a.attr "kind" = some k₀ := by
  induction args generalizing s₀ with
  | nil => intro a ha; simp at ha
  | cons b rest ih =>
    unfold createArgumentsAux at h
    cases hp : processArg s₀ b with
    | error e => rw [hp] at h; exact absurd h (by simp)
    | ok s₁ =>
      rw [hp] at h
      intro a ha ne hne
      rcases List.mem_cons.mp ha with rfl | ha
      · exact xml_processArg_ok_kind_mem hp hne
      · exact ih h a ha ne hne

theorem xml_createArgumentsAux_ok_of_wf {args : List XmlElem} {s₀ : XArgSpec}
    (hwf : ∀ a ∈ args, ∀ ne, a.find "name" = some ne →
      ∃ k₀ ∈ sevenKinds, a.attr "kind" = some k₀) :
    ∃ s, createArgumentsAux s₀ args = .ok s := by
  induction args generalizing s₀ with
  | nil => exact ⟨s₀, rfl⟩
  | cons a rest ih =>
    obtain ⟨s₁, hs₁⟩ := xml_processArg_ok_of_wf (s := s₀) (hwf a (List.mem_cons_self a rest))
    obtain ⟨s, hs⟩ := ih (fun b hb => hwf b (List.mem_cons_of_mem a hb))
    exact ⟨s, by unfold createArgumentsAux; rw [hs₁]; exact hs⟩

end XmlDocBuilder

theorem string_data_append (a b : String) : (a ++ b).data = a.data ++ b.data := by
  cases a
  cases b
  rfl

/-! ## Claim theorems -/

/-- Claim C1 is false on the code: a separator-kind record does produce an
entry in the types mapping — the reconstructor runs
`spec.types[name] = tuple(arg['types'])` unconditionally, separators
included, so the separator record named `"_"` leaves a types entry for
`"_"`. -/
theorem claim_C1_counterexample :
    (JsonDocBuilder.create_arguments c1Args).map
        (fun s => (s.typesGet? "_").isSome) = .ok true := by
  rfl

/-- Claim C1 (amended): in both adapters a separator-kind record
contributes no entry to any of the five groups, and none to the defaults
mapping unless the record itself carries an explicit default; but it does
write a types entry under its own name. -/
theorem claim_C1_amended :
    (∀ (s s' : JArgSpec) (a : JsonArg), a.kind ∈ markerKinds →
      JsonDocBuilder.processArg s a = .ok s' →
        s'.positional_only = s.positional_only ∧
        s'.positional_or_named = s.positional_or_named ∧
        s'.named_only = s.named_only ∧
        s'.var_positional = s.var_positional ∧
        s'.var_named = s.var_named ∧
        (a.defaultValue = none → s'.defaults = s.defaults) ∧
        (s'.typesGet? a.name).isSome = true) ∧
    (∀ (s s' : XArgSpec) (a ne : XmlElem), a.find "name" = some ne →
      (∃ k₀ ∈ markerKinds, a.attr "kind" = some k₀) →
      XmlDocBuilder.processArg s a = .ok s' →
        s'.positional_only = s.positional_only ∧
        s'.positional_or_named = s.positional_or_named ∧
        s'.named_only = s.named_only ∧
        s'.var_positional = s.var_positional ∧
        s'.var_named = s.var_named ∧
        (a.find "default" = none → s'.defaults = s.defaults) ∧
        (s'.typesGet? ne.text).isSome = true) := by
  constructor
  · intro s s' a hmark h
    obtain ⟨⟨ts, _, t2⟩, c1, c2, c3, c4, c5, d1, _⟩ := JsonDocBuilder.processArg_ok_char h
    have hts : (s'.typesGet? a.name).isSome = true := by
      rw [ArgumentSpec.typesGet?_some t2, dictGet?_dictSet_isSome]
      exact Or.inl rfl
    simp only [markerKinds, List.mem_cons, List.mem_singleton, List.not_mem_nil,
      or_false] at hmark
    rcases hmark with hk | hk <;>
      refine ⟨?_, ?_, ?_, ?_, ?_, d1, hts⟩ <;>
        simp [c1, c2, c3, c4, c5, hk, ArgInfo.POSITIONAL_ONLY,
          ArgInfo.POSITIONAL_ONLY_MARKER, ArgInfo.POSITIONAL_OR_NAMED,
          ArgInfo.VAR_POSITIONAL, ArgInfo.NAMED_ONLY_MARKER, ArgInfo.NAMED_ONLY,
          ArgInfo.VAR_NAMED]
  · intro s s' a ne hne hmark h
    rcases XmlDocBuilder.xml_processArg_ok_char h with ⟨hn, rfl⟩ | ⟨ne', hne', t2, c1, c2, c3, c4, c5, d1, _⟩
    · rw [hne] at hn; simp at hn
    · rw [hne] at hne'
      injection hne' with hne'
      subst hne'
      have hts : (s'.typesGet? ne.text).isSome = true := by
        rw [ArgumentSpec.typesGet?_some t2, dictGet?_dictSet_isSome]
        exact Or.inl rfl
      obtain ⟨k₀, hk₀, hkk⟩ := hmark
      simp only [markerKinds, List.mem_cons, List.mem_singleton, List.not_mem_nil,
        or_false] at hk₀
      rcases hk₀ with hk | hk <;> subst hk <;>
        refine ⟨?_, ?_, ?_, ?_, ?_, d1, hts⟩ <;>
          simp [c1, c2, c3, c4, c5, hkk, ArgInfo.POSITIONAL_ONLY,
            ArgInfo.POSITIONAL_ONLY_MARKER, ArgInfo.POSITIONAL_OR_NAMED,
            ArgInfo.VAR_POSITIONAL, ArgInfo.NAMED_ONLY_MARKER, ArgInfo.NAMED_ONLY,
            ArgInfo.VAR_NAMED]

theorem claim_C1_amended_witness :
    (c1SpecJson.positional_only = ({} : JArgSpec).positional_only ∧
     c1SpecJson.positional_or_named = ({} : JArgSpec).positional_or_named ∧
     c1SpecJson.named_only = ({} : JArgSpec).named_only ∧
     c1SpecJson.var_positional = ({} : JArgSpec).var_positional ∧
     c1SpecJson.var_named = ({} : JArgSpec).var_named ∧
     (c1SepJson.defaultValue = none → c1SpecJson.defaults = ({} : JArgSpec).defaults) ∧
     (c1SpecJson.typesGet? c1SepJson.name).isSome = true) ∧
    (c1SpecXml.positional_only = ({} : XArgSpec).positional_only ∧
     c1SpecXml.positional_or_named = ({} : XArgSpec).positional_or_named ∧
     c1SpecXml.named_only = ({} : XArgSpec).named_only ∧
     c1SpecXml.var_positional = ({} : XArgSpec).var_positional ∧
     c1SpecXml.var_named = ({} : XArgSpec).var_named ∧
     (c1SepXml.find "default" = none → c1SpecXml.defaults = ({} : XArgSpec).defaults) ∧
     (c1SpecXml.typesGet? (some "_")).isSome = true) :=
  ⟨claim_C1_amended.1 {} c1SpecJson c1SepJson (by decide) rfl,
   claim_C1_amended.2 {} c1SpecXml c1SepXml { tag := "name", text := some "_", children := [] } rfl
     ⟨ArgInfo.POSITIONAL_ONLY_MARKER, by decide, rfl⟩ rfl⟩

/-- Claim C2: in both adapters, every reconstructed ordered group is
exactly the ordered projection of the input records carrying that kind tag,
and each single-name slot holds the last such record's name. -/
theorem claim_C2_groups :
    (∀ (args : List JsonArg) (s : JArgSpec),
      JsonDocBuilder.create_arguments args = .ok s →
        s.positional_only = jsonGroupNames ArgInfo.POSITIONAL_ONLY args ∧
        s.positional_or_named = jsonGroupNames ArgInfo.POSITIONAL_OR_NAMED args ∧
        s.named_only = jsonGroupNames ArgInfo.NAMED_ONLY args ∧
        s.var_positional = jsonLastVar ArgInfo.VAR_POSITIONAL args ∧
        s.var_named = jsonLastVar ArgInfo.VAR_NAMED args) ∧
    (∀ (args : List XmlElem) (s : XArgSpec),
      XmlDocBuilder.createArgumentsList args = .ok s →
        s.positional_only = xmlGroupNames ArgInfo.POSITIONAL_ONLY args ∧
        s.positional_or_named = xmlGroupNames ArgInfo.POSITIONAL_OR_NAMED args ∧
        s.named_only = xmlGroupNames ArgInfo.NAMED_ONLY args ∧
        s.var_positional = xmlLastVar ArgInfo.VAR_POSITIONAL args ∧
        s.var_named = xmlLastVar ArgInfo.VAR_NAMED args) := by
  constructor
  · intro args s h
    obtain ⟨g1, g2, g3, g4, g5⟩ := JsonDocBuilder.createArgumentsAux_groups h
    exact ⟨by simpa using g1, by simpa using g2, by simpa using g3,
      by simpa [optOr_none_right] using g4, by simpa [optOr_none_right] using g5⟩
  · intro args s h
    obtain ⟨g1, g2, g3, g4, g5⟩ := XmlDocBuilder.xml_createArgumentsAux_groups h
    exact ⟨by simpa using g1, by simpa using g2, by simpa using g3,
      by simpa [optOr_none_right] using g4, by simpa [optOr_none_right] using g5⟩

theorem claim_C2_groups_witness :
    (c2JsonSpec.positional_only = jsonGroupNames ArgInfo.POSITIONAL_ONLY c2JsonArgs ∧
     c2JsonSpec.positional_or_named = jsonGroupNames ArgInfo.POSITIONAL_OR_NAMED c2JsonArgs ∧
     c2JsonSpec.named_only = jsonGroupNames ArgInfo.NAMED_ONLY c2JsonArgs ∧
     c2JsonSpec.var_positional = jsonLastVar ArgInfo.VAR_POSITIONAL c2JsonArgs ∧
     c2JsonSpec.var_named = jsonLastVar ArgInfo.VAR_NAMED c2JsonArgs) ∧
    (c2XmlSpec.positional_only = xmlGroupNames ArgInfo.POSITIONAL_ONLY c2XmlArgs ∧
     c2XmlSpec.positional_or_named = xmlGroupNames ArgInfo.POSITIONAL_OR_NAMED c2XmlArgs ∧
     c2XmlSpec.named_only = xmlGroupNames ArgInfo.NAMED_ONLY c2XmlArgs ∧
     c2XmlSpec.var_positional = xmlLastVar ArgInfo.VAR_POSITIONAL c2XmlArgs ∧
     c2XmlSpec.var_named = xmlLastVar ArgInfo.VAR_NAMED c2XmlArgs) :=
  ⟨claim_C2_groups.1 c2JsonArgs c2JsonSpec rfl,
   claim_C2_groups.2 c2XmlArgs c2XmlSpec rfl⟩

/-- Claim C3: in both adapters, the defaults mapping has an entry for a
name exactly when some record of that name explicitly supplied a default,
and every non-separator record's name has a types entry, which is the
empty sequence when the records of that name supplied no type names. -/
theorem claim_C3_defaults_types :
    (∀ (args : List JsonArg) (s : JArgSpec),
      JsonDocBuilder.create_arguments args = .ok s →
        (∀ n : String, (dictGet? s.defaults n).isSome = true ↔
          ∃ a ∈ args, a.name = n ∧ a.defaultValue.isSome = true) ∧
        (∀ a ∈ args, a.kind ∉ markerKinds → (s.typesGet? a.name).isSome = true) ∧
        (∀ a ∈ args, a.kind ∉ markerKinds →
          (∀ b ∈ args, b.name = a.name → b.types = some []) →
          s.typesGet? a.name = some [])) ∧
    (∀ (args : List XmlElem) (s : XArgSpec),
      XmlDocBuilder.createArgumentsList args = .ok s →
        (∀ n : Option String, (dictGet? s.defaults n).isSome = true ↔
          ∃ a ∈ args, ∃ ne, a.find "name" = some ne ∧ ne.text = n ∧
            (a.find "default").isSome = true) ∧
        (∀ a ∈ args, ∀ ne, a.find "name" = some ne →
          (¬∃ k₀ ∈ markerKinds, a.attr "kind" = some k₀) →
          (s.typesGet? ne.text).isSome = true) ∧
        (∀ a ∈ args, ∀ ne, a.find "name" = some ne →
          (¬∃ k₀ ∈ markerKinds, a.attr "kind" = some k₀) →
          (∀ b ∈ args, ∀ nb, b.find "name" = some nb → nb.text = ne.text →
            (b.findall "type").map XmlElem.text = []) →
          s.typesGet? ne.text = some [])) := by
  constructor
  · intro args s h
    refine ⟨?_, ?_, ?_⟩
    · intro n
      have hiff := JsonDocBuilder.createArgumentsAux_defaults h n
      simpa [dictGet?] using hiff
    · intro a ha _
      exact JsonDocBuilder.createArgumentsAux_typesGet_mem h ha
    · intro a ha _ hall
      have h1 := JsonDocBuilder.createArgumentsAux_typesGet_mem h ha
      have h2 := JsonDocBuilder.createArgumentsAux_typesGet_empty h a.name (Or.inl rfl) hall
      rcases h2 with h2 | h2
      · rw [h2] at h1; simp at h1
      · exact h2
  · intro args s h
    refine ⟨?_, ?_, ?_⟩
    · intro n
      have hiff := XmlDocBuilder.xml_createArgumentsAux_defaults h n
      simpa [dictGet?] using hiff
    · intro a ha ne hne _
      exact XmlDocBuilder.xml_createArgumentsAux_typesGet_mem h ha hne
    · intro a ha ne hne _ hall
      have h1 := XmlDocBuilder.xml_createArgumentsAux_typesGet_mem h ha hne
      have h2 := XmlDocBuilder.xml_createArgumentsAux_typesGet_empty h ne.text (Or.inl rfl) hall
      rcases h2 with h2 | h2
      · rw [h2] at h1; simp at h1
      · exact h2

theorem claim_C3_defaults_types_witness :
    ((dictGet? c3JsonSpec.defaults "p").isSome = true ↔
      ∃ a ∈ c3JsonArgs, a.name = "p" ∧ a.defaultValue.isSome = true) ∧
    (c3JsonSpec.typesGet? c3RecQ.name).isSome = true ∧
    c3JsonSpec.typesGet? c3RecP.name = some [] ∧
    ((dictGet? c3XmlSpec.defaults (some "m")).isSome = true ↔
      ∃ a ∈ [c3XmlArg], ∃ ne, a.find "name" = some ne ∧ ne.text = some "m" ∧
        (a.find "default").isSome = true) :=
  ⟨(claim_C3_defaults_types.1 c3JsonArgs c3JsonSpec rfl).1 "p",
   (claim_C3_defaults_types.1 c3JsonArgs c3JsonSpec rfl).2.1 c3RecQ (by decide) (by decide),
   (claim_C3_defaults_types.1 c3JsonArgs c3JsonSpec rfl).2.2 c3RecP (by decide) (by decide)
     (by decide),
   (claim_C3_defaults_types.2 [c3XmlArg] c3XmlSpec rfl).1 (some "m")⟩

/-- Claim C4 is false on the code as to the error's nature: an unrecognized
kind makes the setter-table subscript fail, so the reconstructor raises the
low-level lookup failure `KeyError` carrying the kind — not a
domain-specific error. -/
theorem claim_C4_counterexample :
    JsonDocBuilder.create_arguments c4Args = .error (.keyError "WEIRD") ∧
    (PyError.keyError "WEIRD").isDataError = false :=
  ⟨rfl, rfl⟩

/-- Claim C4 (amended): in both adapters the reconstructor fails — with a
key-lookup error (`KeyError`), not a domain-specific error — on every
sequence containing a (variant-B: name-bearing) record whose kind is not
one of the seven recognized tokens, and succeeds on every sequence of
well-formed records whose kinds are all drawn from the seven-token set. -/
theorem claim_C4_amended :
    (∀ args : List JsonArg, (∃ a ∈ args, a.kind ∉ sevenKinds) →
      ∃ key, JsonDocBuilder.create_arguments args = .error (.keyError key)) ∧
    (∀ args : List JsonArg,
      (∀ a ∈ args, a.kind ∈ sevenKinds ∧ a.types.isSome = true) →
      ∃ s, JsonDocBuilder.create_arguments args = .ok s) ∧
    (∀ args : List XmlElem,
      (∃ a ∈ args, (∃ ne, a.find "name" = some ne) ∧
        ¬∃ k₀ ∈ sevenKinds, a.attr "kind" = some k₀) →
      ∃ key, XmlDocBuilder.createArgumentsList args = .error (.keyError key)) ∧
    (∀ args : List XmlElem,
      (∀ a ∈ args, ∀ ne, a.find "name" = some ne →
        ∃ k₀ ∈ sevenKinds, a.attr "kind" = some k₀) →
      ∃ s, XmlDocBuilder.createArgumentsList args = .ok s) := by
  refine ⟨?_, ?_, ?_, ?_⟩
  · rintro args ⟨a, ha, hk⟩
    cases hres : JsonDocBuilder.create_arguments args with
    | ok s => exact absurd (JsonDocBuilder.createArgumentsAux_ok_kinds hres a ha) hk
    | error e =>
      obtain ⟨key, rfl⟩ := JsonDocBuilder.createArgumentsAux_error_keyError hres
      exact ⟨key, rfl⟩
  · intro args hwf
    exact JsonDocBuilder.createArgumentsAux_ok_of_wf hwf
  · rintro args ⟨a, ha, ⟨ne, hne⟩, hk⟩
    cases hres : XmlDocBuilder.createArgumentsList args with
    | ok s => exact absurd (XmlDocBuilder.xml_createArgumentsAux_ok_kinds hres a ha ne hne) hk
    | error e =>
      obtain ⟨key, rfl⟩ := XmlDocBuilder.xml_createArgumentsAux_error_keyError hres
      exact ⟨key, rfl⟩
  · intro args hwf
    exact XmlDocBuilder.xml_createArgumentsAux_ok_of_wf hwf

theorem claim_C4_amended_witness :
    (∃ key, JsonDocBuilder.create_arguments c4Args = .error (.keyError key)) ∧
    (∃ s, JsonDocBuilder.create_arguments c3JsonArgs = .ok s) ∧
    (∃ key, XmlDocBuilder.createArgumentsList [c4XmlBad] = .error (.keyError key)) ∧
    (∃ s, XmlDocBuilder.createArgumentsList [c3XmlArg] = .ok s) :=
  ⟨claim_C4_amended.1 c4Args ⟨{ name := "x", kind := "WEIRD", types := some [] },
      by decide, by decide⟩,
   claim_C4_amended.2.1 c3JsonArgs (by decide),
   claim_C4_amended.2.2.1 [c4XmlBad]
     ⟨c4XmlBad, by simp, ⟨{ tag := "name", text := some "x", children := [] }, rfl⟩,
      by decide⟩,
   claim_C4_amended.2.2.2 [c3XmlArg] (by
     intro a ha ne hne
     simp only [List.mem_singleton] at ha
     subst ha
     exact ⟨ArgInfo.POSITIONAL_OR_NAMED, by decide, rfl⟩)⟩

/-- Claim C5 is false on the code: building the claim's document does not
yield a ParameterSpec at all — the separator record lacks the `"types"` key,
so `arg['types']` raises a `KeyError` and the build fails. -/
theorem claim_C5_counterexample :
    JsonDocBuilder.build_from_dict c5DocClaim = .error (.keyError "types") := by
  rfl

/-- Claim C5 (amended): with the separator record carrying `"types": []`,
the build yields for `"Run"` a ParameterSpec with `positionalOnly = []`,
`positionalOrNamed = ["y"]`, `defaults = {"y": 5}` and
`types = {"_": [], "y": ["int"]}` — the separator contributes a types entry
under its own name `"_"`. -/
theorem claim_C5_amended :
    (JsonDocBuilder.build_from_dict c5Doc).map
        (fun d => d.keywords.map JKeywordDoc.args) =
      .ok [{ positional_only := [], positional_or_named := ["y"], var_positional := none,
             named_only := [], var_named := none, defaults := [("y", .i 5)],
             types := some [("_", []), ("y", ["int"])] }] := by
  rfl

/-- Claim C6: for every variant-B document, before any field is extracted,
a root tag other than `keywordspec` fails with the domain error
`"Invalid spec file '<path>'."`, and otherwise a `specversion` outside
`{"3","4"}` fails with the domain error naming the supported versions
3 and 4. -/
theorem claim_C6_validation :
    ∀ (fs : String → Option XmlElem) (path : String) (root : XmlElem),
      fs path = some root →
      (root.tag ≠ "keywordspec" →
        XmlDocBuilder.build fs path =
          .error (.dataError ("Invalid spec file '" ++ path ++ "'."))) ∧
      (root.tag = "keywordspec" →
        root.attr "specversion" ≠ some "3" →
        root.attr "specversion" ≠ some "4" →
        XmlDocBuilder.build fs path =
          .error (.dataError ("Invalid spec file version '" ++
            pyShowOpt (root.attr "specversion") ++ "'. Supported versions are 3 and 4."))) := by
  intro fs path root hfs
  constructor
  · intro htag
    have hp : XmlDocBuilder.parse_spec fs path =
        .error (.dataError ("Invalid spec file '" ++ path ++ "'.")) := by
      unfold XmlDocBuilder.parse_spec
      rw [hfs]
      dsimp only
      rw [if_pos htag]
    unfold XmlDocBuilder.build
    rw [hp]
  · intro htag h3 h4
    have hp : XmlDocBuilder.parse_spec fs path =
        .error (.dataError ("Invalid spec file version '" ++
          pyShowOpt (root.attr "specversion") ++ "'. Supported versions are 3 and 4.")) := by
      unfold XmlDocBuilder.parse_spec
      rw [hfs]
      dsimp only
      rw [if_neg (by simp [htag]), if_pos ⟨h3, h4⟩]
    unfold XmlDocBuilder.build
    rw [hp]

theorem claim_C6_validation_witness :
    XmlDocBuilder.build c6FsBad "a.xml" =
      .error (.dataError ("Invalid spec file '" ++ "a.xml" ++ "'.")) ∧
    XmlDocBuilder.build c6FsVer "b.xml" =
      .error (.dataError ("Invalid spec file version '" ++
        pyShowOpt (c6RootVer.attr "specversion") ++ "'. Supported versions are 3 and 4.")) :=
  ⟨(claim_C6_validation c6FsBad "a.xml" c6RootBad rfl).1 (by decide),
   (claim_C6_validation c6FsVer "b.xml" c6RootVer rfl).2 rfl (by decide) (by decide)⟩

/-- Claim C7: for every path that does not reference an existing readable
file, both adapters fail with the domain error
`"Spec file '<path>' does not exist."`, whose text contains the path. -/
theorem claim_C7_missing_file :
    ∀ (fsj : String → Option JsonDoc) (fsx : String → Option XmlElem) (path : String),
      fsj path = none → fsx path = none →
      JsonDocBuilder.build fsj path =
        .error (.dataError ("Spec file '" ++ path ++ "' does not exist.")) ∧
      XmlDocBuilder.build fsx path =
        .error (.dataError ("Spec file '" ++ path ++ "' does not exist.")) ∧
      path.data <:+: ("Spec file '" ++ path ++ "' does not exist.").data := by
  intro fsj fsx path hj hx
  refine ⟨?_, ?_, ?_⟩
  · unfold JsonDocBuilder.build
    rw [hj]
  · have hp : XmlDocBuilder.parse_spec fsx path =
        .error (.dataError ("Spec file '" ++ path ++ "' does not exist.")) := by
      unfold XmlDocBuilder.parse_spec
      rw [hx]
    unfold XmlDocBuilder.build
    rw [hp]
  · refine ⟨"Spec file '".data, "' does not exist.".data, ?_⟩
    rw [string_data_append, string_data_append]

theorem claim_C7_missing_file_witness :
    JsonDocBuilder.build c7FsJson "missing.xml" =
      .error (.dataError ("Spec file '" ++ "missing.xml" ++ "' does not exist.")) ∧
    XmlDocBuilder.build c7FsXml "missing.xml" =
      .error (.dataError ("Spec file '" ++ "missing.xml" ++ "' does not exist.")) ∧
    "missing.xml".data <:+: ("Spec file '" ++ "missing.xml" ++ "' does not exist.").data :=
  claim_C7_missing_file c7FsJson c7FsXml "missing.xml" rfl rfl

/-- Claim C8 is false on the code for the absent-attribute case: the
library-level line number is computed as `int(spec.get('lineno')) or -1`,
so a root without a `lineno` attribute makes `int(None)` raise a
`TypeError` — no LibraryDocument with lineNumber `-1` results. -/
theorem claim_C8_counterexample :
    XmlDocBuilder.build c8Fs "lib.xml" = .error .typeError ∧
    (XmlDocBuilder.build c8Fs "lib.xml").toOption = none :=
  ⟨rfl, rfl⟩

/-- Claim C8 (amended): a variant-B build that returns a document parsed a
present `lineno` attribute; the resulting lineNumber is `-1` when the raw
value parses to zero and the parsed value otherwise.  (When the attribute
is absent the build fails with a `TypeError` instead of defaulting.) -/
theorem claim_C8_amended :
    ∀ (fs : String → Option XmlElem) (path : String) (root : XmlElem) (doc : XLibraryDoc),
      fs path = some root → XmlDocBuilder.build fs path = .ok doc →
      ∃ v n, root.attr "lineno" = some v ∧ pyIntParse v = some n ∧
        doc.lineno = (if n = 0 then -1 else n) := by
  intro fs path root doc hfs hok
  unfold XmlDocBuilder.build at hok
  cases hps : XmlDocBuilder.parse_spec fs path with
  | error e => rw [hps] at hok; exact absurd hok (by simp)
  | ok root' =>
    rw [hps] at hok
    dsimp only at hok
    have hroot : root' = root := by
      unfold XmlDocBuilder.parse_spec at hps
      rw [hfs] at hps
      dsimp only at hps
      split_ifs at hps <;>
        first
          | (injection hps with hps; exact hps.symm)
          | simp at hps
    rw [hroot] at hok
    unfold XmlDocBuilder.buildFromRoot at hok
    dsimp only at hok
    cases hty : root.attr "type" with
    | none => rw [hty] at hok; exact absurd hok (by simp)
    | some ty =>
      rw [hty] at hok
      dsimp only at hok
      cases hver : root.find "version" with
      | none => rw [hver] at hok; exact absurd hok (by simp)
      | some versionElem =>
        rw [hver] at hok
        dsimp only at hok
        cases hdoc : root.find "doc" with
        | none => rw [hdoc] at hok; exact absurd hok (by simp)
        | some docElem =>
          rw [hdoc] at hok
          dsimp only at hok
          cases hli : pyIntOfOpt (root.attr "lineno") with
          | error e => rw [hli] at hok; exact absurd hok (by simp)
          | ok n =>
            rw [hli] at hok
            dsimp only at hok
            have hvn : ∃ v, root.attr "lineno" = some v ∧ pyIntParse v = some n := by
              unfold pyIntOfOpt at hli
              cases hattr : root.attr "lineno" with
              | none => rw [hattr] at hli; exact absurd hli (by simp)
              | some v =>
                rw [hattr] at hli
                dsimp only at hli
                cases hpar : pyIntParse v with
                | none => rw [hpar] at hli; exact absurd hli (by simp)
                | some n' =>
                  rw [hpar] at hli
                  injection hli with hli
                  exact ⟨v, rfl, by rw [hpar, hli]⟩
            obtain ⟨v, hattr, hpar⟩ := hvn
            cases hinits : XmlDocBuilder.create_keywords root "inits" "init"
                (root.attr "source") with
            | error e => rw [hinits] at hok; exact absurd hok (by simp)
            | ok inits =>
              rw [hinits] at hok
              dsimp only at hok
              cases hkws : XmlDocBuilder.create_keywords root "keywords" "kw"
                  (root.attr "source") with
              | error e => rw [hkws] at hok; exact absurd hok (by simp)
              | ok keywords =>
                rw [hkws] at hok
                dsimp only at hok
                cases hdts : XmlDocBuilder.create_data_types root with
                | error e => rw [hdts] at hok; exact absurd hok (by simp)
                | ok data_types =>
                  rw [hdts] at hok
                  dsimp only at hok
                  injection hok with hok
                  refine ⟨v, n, hattr, hpar, ?_⟩
                  rw [← hok]

theorem claim_C8_amended_witness :
    ∃ v n, c8RootW.attr "lineno" = some v ∧ pyIntParse v = some n ∧
      c8DocW.lineno = (if n = 0 then -1 else n) :=
  claim_C8_amended c8FsW "w.xml" c8RootW c8DocW rfl rfl

/-- Claim C9: a record-type item's `required` field is tri-state in both
adapters — absent source value gives the absent sentinel, boolean
true/false (variant A) and string `"true"`/`"false"` (variant B) give true
and false. -/
theorem claim_C9_required_tristate :
    (∀ d : JsonTypedDict,
      (JsonDocBuilder.create_typed_dict_doc d).items.map JTypedDictItemDoc.required =
        d.items.map JsonTypedDictItem.required) ∧
    (∀ (elem : XmlElem) (td : XTypedDictDoc),
      XmlDocBuilder.create_typed_dict_doc elem = .ok td →
        td.items.map XTypedDictItemDoc.required =
          (elem.findall2 "items" "item").map XmlDocBuilder.requiredOf) ∧
    (∀ it : XmlElem,
      (it.attr "required" = none → XmlDocBuilder.requiredOf it = none) ∧
      (it.attr "required" = some "true" → XmlDocBuilder.requiredOf it = some true) ∧
      (it.attr "required" = some "false" → XmlDocBuilder.requiredOf it = some false)) := by
  refine ⟨?_, ?_, ?_⟩
  · intro d
    simp [JsonDocBuilder.create_typed_dict_doc]
  · intro elem td h
    unfold XmlDocBuilder.create_typed_dict_doc at h
    dsimp only at h
    cases hd : elem.find "doc" with
    | none => rw [hd] at h; exact absurd h (by simp)
    | some docElem =>
      rw [hd] at h
      injection h with h
      rw [← h]
      simp
  · intro it
    refine ⟨?_, ?_, ?_⟩ <;> intro h <;> simp [XmlDocBuilder.requiredOf, h]

theorem claim_C9_required_tristate_witness :
    ((JsonDocBuilder.create_typed_dict_doc c9Json).items.map JTypedDictItemDoc.required =
      c9Json.items.map JsonTypedDictItem.required) ∧
    (c9Td.items.map XTypedDictItemDoc.required =
      (c9Xml.findall2 "items" "item").map XmlDocBuilder.requiredOf) ∧
    XmlDocBuilder.requiredOf c9Item1 = none ∧
    XmlDocBuilder.requiredOf c9Item2 = some true ∧
    XmlDocBuilder.requiredOf c9Item3 = some false :=
  ⟨claim_C9_required_tristate.1 c9Json,
   claim_C9_required_tristate.2.1 c9Xml c9Td rfl,
   (claim_C9_required_tristate.2.2 c9Item1).1 rfl,
   (claim_C9_required_tristate.2.2 c9Item2).2.1 rfl,
   (claim_C9_required_tristate.2.2 c9Item3).2.2 rfl⟩

/-- Claim C10: a variant-B keyword/init element's lineNumber defaults to
`-1` exactly when the `lineno` attribute is absent, and is otherwise the
parsed attribute value with no zero-to-minus-one normalization — a `"0"`
attribute yields 0, unlike the library-level lineNumber. -/
theorem claim_C10_keyword_lineno :
    ∀ (elem : XmlElem) (libSource : Option String) (kw : XKeywordDoc),
      XmlDocBuilder.create_keyword elem libSource = .ok kw →
      (elem.attr "lineno" = none → kw.lineno = -1) ∧
      (∀ v n, elem.attr "lineno" = some v → pyIntParse v = some n → kw.lineno = n) := by
  intro elem libSource kw h
  unfold XmlDocBuilder.create_keyword at h
  dsimp only at h
  cases hargs : XmlDocBuilder.create_arguments elem with
  | error e => rw [hargs] at h; exact absurd h (by simp)
  | ok args =>
    rw [hargs] at h
    dsimp only at h
    cases hdoc : elem.find "doc" with
    | none => rw [hdoc] at h; exact absurd h (by simp)
    | some docElem =>
      rw [hdoc] at h
      dsimp only at h
      cases hsd : elem.find "shortdoc" with
      | none => rw [hsd] at h; exact absurd h (by simp)
      | some sdElem =>
        rw [hsd] at h
        dsimp only at h
        cases hli : pyIntOfOptDefault (elem.attr "lineno") (-1) with
        | error e => rw [hli] at h; exact absurd h (by simp)
        | ok m =>
          rw [hli] at h
          dsimp only at h
          injection h with h
          constructor
          · intro hattr
            rw [hattr] at hli
            injection hli with hli
            rw [← h]
            exact hli.symm
          · intro v n hattr hpar
            rw [hattr] at hli
            unfold pyIntOfOptDefault at hli
            dsimp only at hli
            rw [hpar] at hli
            injection hli with hli
            rw [← h]
            exact hli.symm

theorem claim_C10_keyword_lineno_witness : c10Kw.lineno = 0 :=
  (claim_C10_keyword_lineno c10Elem none c10Kw rfl).2 "0" 0 rfl rfl

end RobotLibdoc
